import Mathlib

/-! Traveloke: admin transaction reconciliation, wishlist store, pagination and
breadcrumbs.

A shallow embedding of `src/pages/admin/Transactions.jsx` (`fetchTransactions`,
`handleUpdateStatus`, filter, pagination), `src/contexts/WishlistContext.jsx`,
the pagination of `src/pages/admin/Users.jsx`, `getPageNumbers` and
`isNewPaymentProof` of `src/pages/TransactionHistory.jsx`, and `generateBreadcrumbs` of
`src/components/Navbar.jsx`.

Conventions of the embedding:

* a JavaScript object is a structure whose optional fields are `Option`s; `none`
  stands for an absent (`undefined`/`null`) field;
* `a || b` on strings is `strOr`: the empty string is falsy, like an absent value;
* a value read from `localStorage` and passed through `JSON.parse` is a `Stored`:
  the key may be absent, the text may fail to parse, the parsed value may not be an
  array, or it is an array of records;
* the remote collaborators (`getAllTransactions`, `updateTransactionStatus`) are
  inputs: the outcome of the awaited call is an argument of the function;
* React state setters, `localStorage.setItem`, `toast.*` and remote calls are
  recorded, in program order, in the `log` of a `World`;
* the built-ins whose result depends on Unicode tables or on the platform
  (`toLowerCase`, `toUpperCase`, the date parser) are parameters of the functions
  that call them.
-/

namespace Traveloke

/-! ## Data model -/

/-- The `user` subrecord of a transaction. -/
structure UserInfo where
  id : Option String := none
  name : Option String := none
  email : Option String := none
  phone : Option String := none
  avatar : Option String := none
deriving DecidableEq, Repr

/-- The `paymentMethod` subrecord of a transaction. -/
structure PaymentMethod where
  id : Option String := none
  name : Option String := none
deriving DecidableEq, Repr

/-- The `activity` reference of a line item. -/
structure Activity where
  title : Option String := none
  imageUrls : List String := []
  price : Option Int := none
deriving DecidableEq, Repr

/-- One line item of a transaction. -/
structure Item where
  activity : Option Activity := none
  quantity : Option Int := none
  price : Option Int := none
deriving DecidableEq, Repr

/-- A transaction object, as it arrives from a source and as it is kept in the
component state. Every field the code reads or writes is present; a field the
object does not have is `none` (flags: `false`). -/
structure Transaction where
  id : Option String := none
  status : Option String := none
  amount : Option Int := none
  createdAt : Option String := none
  updatedAt : Option String := none
  userId : Option String := none
  userName : Option String := none
  userEmail : Option String := none
  userPhone : Option String := none
  userProfilePictureUrl : Option String := none
  user : Option UserInfo := none
  paymentMethodId : Option String := none
  paymentMethodName : Option String := none
  paymentMethod : Option PaymentMethod := none
  items : Option (List Item) := none
  transactionItems : Option (List Item) := none
  proofPaymentUrl : Option String := none
  paymentProofUrl : Option String := none
  isApiTransaction : Bool := false
  isUserTransaction : Bool := false
  isMockTransaction : Bool := false
  isSampleTransaction : Bool := false
  source : Option String := none
deriving DecidableEq, Repr

/-- JavaScript truthiness of an optional string: absent and `""` are falsy. -/
def truthyStr : Option String → Bool
  | some s => s != ""
  | none => false

/-- The expression `a || b` on optional strings. -/
def strOr (a b : Option String) : Option String :=
  if truthyStr a then a else b

/-- The expression `a || d` on an optional number with a numeric default: absent and
`0` are falsy. -/
def numOr (a : Option Int) (d : Int) : Int :=
  match a with
  | some n => if n = 0 then d else n
  | none => d

/-- The expression `a || b || []` on optional arrays (an array is always truthy). -/
def itemsOr (a b : Option (List Item)) : List Item :=
  match a with
  | some l => l
  | none => b.getD []

/-- Outcome of `await getAllTransactions()` followed by the shape test
`response.data && Array.isArray(response.data.data)`. -/
inductive FetchOutcome where
  /-- The call rejects. -/
  | throws
  /-- The call resolves, `response.data` is falsy or `response.data.data` is not an
  array. -/
  | notArray
  /-- The call resolves with `response.data.data` an array. -/
  | ok (records : List Transaction)
deriving DecidableEq, Repr

/-- A persisted collection: the result of `localStorage.getItem(key)` and
`JSON.parse`. -/
inductive Stored (α : Type) where
  /-- No value under the key: `getItem` returns `null` (or the empty text). -/
  | absent
  /-- The text is not JSON: `JSON.parse` throws. -/
  | unparsable
  /-- The text parses to a value that is not an array. -/
  | notArray
  /-- The text parses to an array. -/
  | array (l : List α)
deriving DecidableEq, Repr

/-- The keys of `localStorage` the admin page reads. -/
structure LocalStorage where
  userTransactions : Stored Transaction := Stored.absent
  mockTransactions : Stored Transaction := Stored.absent
  userId : Option String := none
  name : Option String := none
  email : Option String := none
  profilePictureUrl : Option String := none
deriving DecidableEq, Repr

/-! ## Vocabulary of the statements -/

/-- The records a remote outcome contributes. -/
def FetchOutcome.records : FetchOutcome → List Transaction
  | FetchOutcome.ok records => records
  | _ => []

/-- The records a persisted collection contributes. -/
def Stored.records {α : Type} : Stored α → List α
  | Stored.array l => l
  | _ => []

/-- The ids of a list of records, in order. -/
def ids (l : List Transaction) : List (Option String) := l.map (·.id)

/-- The source tags of a list of records, in order. -/
def sources (l : List Transaction) : List (Option String) := l.map (·.source)

/-! ## `fetchTransactions` -/

/-- Step 1 of `fetchTransactions`: the mapping applied to every record of the API
response. `now` is `new Date().toISOString()`. -/
def processApiTransaction (now : String) (transaction : Transaction) : Transaction :=
  { id := transaction.id
    status := strOr transaction.status (some "pending")
    amount := some (numOr transaction.amount 0)
    createdAt := strOr transaction.createdAt (some now)
    updatedAt := strOr transaction.updatedAt (some now)
    user := some
      { id := strOr transaction.userId (transaction.user.bind (·.id))
        name := strOr (strOr transaction.userName (transaction.user.bind (·.name)))
          (some "Unknown User")
        email := strOr (strOr transaction.userEmail (transaction.user.bind (·.email)))
          (some "No email")
        phone := strOr (strOr transaction.userPhone (transaction.user.bind (·.phone)))
          (some "No phone")
        avatar := strOr
          (strOr transaction.userProfilePictureUrl (transaction.user.bind (·.avatar))) none }
    paymentMethod := some
      { id := strOr transaction.paymentMethodId (transaction.paymentMethod.bind (·.id))
        name := strOr
          (strOr transaction.paymentMethodName (transaction.paymentMethod.bind (·.name)))
          (some "Unknown Method") }
    items := some (itemsOr transaction.items transaction.transactionItems)
    paymentProofUrl := strOr (strOr transaction.proofPaymentUrl transaction.paymentProofUrl) none
    isApiTransaction := true
    source := some "api" }

/-- Step 1: `apiTransactions`, empty unless the call resolved with an array. -/
def apiTransactions (now : String) : FetchOutcome → List Transaction
  | FetchOutcome.ok records => records.map (processApiTransaction now)
  | _ => []

/-- Step 2: the mapping applied to a persisted user transaction that is not a
duplicate. -/
def processUserTransaction (now : String) (ls : LocalStorage) (transaction : Transaction) :
    Transaction :=
  { id := transaction.id
    status := strOr transaction.status (some "pending")
    amount := some (numOr transaction.amount 0)
    createdAt := strOr transaction.createdAt (some now)
    updatedAt := strOr transaction.updatedAt (some now)
    user := some
      { id := strOr ls.userId (some "unknown-user")
        name := strOr ls.name (some "Unknown User")
        email := strOr ls.email (some "No email")
        phone := some "No phone"
        avatar := strOr ls.profilePictureUrl none }
    paymentMethod := some
      { id := some "unknown"
        name := strOr (transaction.paymentMethod.bind (·.name)) (some "Unknown Method") }
    items := some (transaction.items.getD [])
    paymentProofUrl := strOr transaction.paymentProofUrl none
    isUserTransaction := true
    source := some "userTransactions" }

/-- Step 2: `userTransactions`. The source maps a duplicate to `null` and removes the
`null`s with `.filter(Boolean)`; `filterMap` is that composition. -/
def userTransactions (now : String) (ls : LocalStorage) (api : List Transaction) :
    List Transaction :=
  match ls.userTransactions with
  | Stored.array parsed =>
    parsed.filterMap fun transaction =>
      if api.any (fun t => t.id == transaction.id) then none
      else some (processUserTransaction now ls transaction)
  | _ => []

/-- Step 3: the spread `\x7b...transaction, isMockTransaction: true, source:
"mockTransactions"\x7d` applied to a surviving mock record. -/
def tagMock (transaction : Transaction) : Transaction :=
  { transaction with isMockTransaction := true, source := some "mockTransactions" }

/-- Step 3: `mockTransactions`: the survivors keep all their fields and get the flag
and the source tag. -/
def mockTransactions (ls : LocalStorage) (api user : List Transaction) : List Transaction :=
  match ls.mockTransactions with
  | Stored.array parsed =>
    (parsed.filter fun mock => !(api ++ user).any (fun t => t.id == mock.id)).map tagMock
  | _ => []

/-- The three fixed placeholder ids. -/
def specificIds : List String :=
  [ "280633ed-7800-4579-88fa-8162a963e2ee",
    "41546323-2a30-4877-8247-de75e7e3aa05",
    "3a1fa0de-db63-498f-b640-522ec2fc370f" ]

/-- The placeholder record built for the id at position `index`. -/
def sampleTransaction (index : Nat) (id : String) : Transaction :=
  { id := some id
    status := some "waiting_verification"
    amount := some (if index = 0 then 20000000 else 5000000)
    createdAt := some ("2025-05-06T05:0" ++ toString (index + 3) ++ ":14.167Z")
    updatedAt := some ("2025-05-06T05:0" ++ toString (index + 3) ++ ":14.167Z")
    user := some
      { id := some "91b78b5e-1a5e-428b-b8d6-573f0f20b7e2"
        name := some "jon"
        email := some "jon@yopmail.com"
        phone := some "No phone"
        avatar := some "https://images.unsplash.com/photo-1633332755192-727a05c4013d?ixlib=rb-1.2.1&ixid=MnwxMjA3fDB8MHxzZWFyY2h8MXx8dXNlcnxlbnwwfHwwfHw%3D&w=1000&q=80" }
    paymentMethod := some { id := some "payment-method-1", name := some "BCA" }
    items := some
      [ { activity := some
            { title := some "Sample Activity"
              imageUrls :=
                ["https://travel-journal-api-bootcamp.do.dibimbing.id/images/1738978161323-blob"]
              price := some (if index = 0 then 20000000 else 5000000) }
          quantity := some 1
          price := some (if index = 0 then 20000000 else 5000000) } ]
    paymentProofUrl := none
    isSampleTransaction := true
    source := some "sample" }

/-- The fallback list `specificIds.map((id, index) => ...)`. -/
def sampleTransactions : List Transaction :=
  specificIds.enum.map fun p => sampleTransaction p.1 p.2

/-! ## Component state and effects -/

/-- The kinds of `toast` call that react-hot-toast provides and the pages use; the
message text is not modelled. The library has no `toast.warning` and no `toast.info`:
calling one throws a `TypeError`. -/
inductive Toast where
  | success
  | error
  | loading
  | dismiss
deriving DecidableEq, Repr

/-- An effectful call made by a handler, recorded in program order. -/
inductive Event where
  /-- `setTransactions(list)`. -/
  | setTransactions (list : List Transaction)
  /-- `setTransactions(prev => prev.map(...))`: the status of `id` is committed. -/
  | commitStatus (id : String) (status : String)
  /-- `localStorage.setItem(key, JSON.stringify(...))`. -/
  | storageSet (key : String)
  /-- `updateTransactionStatus(id, \x7bstatus\x7d)` is called. -/
  | remoteUpdate (id : String) (status : String)
  /-- A `toast.*` call. -/
  | toast (t : Toast)
deriving DecidableEq, Repr

/-- The `useState` cells of the `Transactions` component. -/
structure State where
  transactions : List Transaction := []
  loading : Bool := true
  currentPage : Nat := 1
  itemsPerPage : Nat := 10
  isViewModalOpen : Bool := false
  currentTransaction : Option Transaction := none
  isProcessing : Bool := false
  filterStatus : String := "all"
  searchQuery : String := ""
  refreshTrigger : Nat := 0
  apiError : Option String := none
  showActionMenu : Option String := none
deriving DecidableEq, Repr

/-- Component state, persistent storage and the record of effectful calls. -/
structure World where
  state : State := {}
  storage : LocalStorage := {}
  log : List Event := []
deriving DecidableEq, Repr

/-- Records a `toast.*` call. -/
def World.toast (w : World) (t : Toast) : World :=
  { w with log := w.log ++ [Event.toast t] }

/-- The call `setTransactions(list)`. -/
def World.setTransactions (w : World) (list : List Transaction) : World :=
  { w with state := { w.state with transactions := list }
           log := w.log ++ [Event.setTransactions list] }

/-- The outer `catch` of `fetchTransactions`, entered with the message of the error
thrown: `setApiError` with the text built from it, then `toast.error`. -/
def World.fetchFailed (w : World) (message : String) : World :=
  ({ w with state := { w.state with
       apiError := some ("Failed to fetch transactions: " ++ message) } }).toast Toast.error

/-- The whole of `fetchTransactions`; `remote` is the outcome of the awaited
`getAllTransactions()`, `now` the current time as ISO text. The calls
`toast.warning(...)` and `toast.info(...)` name methods react-hot-toast does not have:
each throws a `TypeError`, after `setTransactions`, into the outer `catch`; the
message is the one of the engine. The `finally` clause ends every path. -/
def fetchTransactions (now : String) (remote : FetchOutcome) (w : World) : World :=
  let w := { w with state := { w.state with loading := true } }
  let w := { w with state := { w.state with apiError := none } }
  let api := apiTransactions now remote
  let user := userTransactions now w.storage api
  let mock := mockTransactions w.storage api user
  let all := api ++ user ++ mock
  let w :=
    if all.length = 0 then
      (w.setTransactions sampleTransactions).fetchFailed "toast.warning is not a function"
    else
      let w := w.setTransactions all
      if api.length > 0 then w
      else if user.length > 0 then w.fetchFailed "toast.info is not a function"
      else if mock.length > 0 then w.fetchFailed "toast.warning is not a function"
      else w
  { w with state := { w.state with loading := false } }

/-! ## `handleUpdateStatus` -/

/-- The body `response.data` of a resolved `updateTransactionStatus` call; a `code`
or `status` that is not a string is never `===` to the texts tested and is `none`. -/
structure ResponseData where
  code : Option String := none
  status : Option String := none
deriving DecidableEq, Repr

/-- Outcome of `await updateTransactionStatus(id, \x7bstatus\x7d)`. -/
inductive UpdateOutcome where
  /-- The call rejects; `httpStatus` is `apiError.response?.status`. -/
  | throws (httpStatus : Option Nat)
  /-- The call resolves; `data` is `response.data`, `none` when falsy. -/
  | response (data : Option ResponseData)
deriving DecidableEq, Repr

/-- The call `s.startsWith(p)`. -/
def startsWith (s p : String) : Bool :=
  p.toList.isPrefixOf s.toList

/-- The mapping `transaction.id === transactionId ? \x7b...transaction, status:
newStatus\x7d : transaction`. -/
def updateStatus (transactionId newStatus : String) (transaction : Transaction) : Transaction :=
  if transaction.id = some transactionId then { transaction with status := some newStatus }
  else transaction

/-- The call `setIsProcessing(b)`. -/
def World.setIsProcessing (w : World) (b : Bool) : World :=
  { w with state := { w.state with isProcessing := b } }

/-- The call `setTransactions(prev => prev.map(...))` that commits the new status in
memory. -/
def World.commitStatus (w : World) (transactionId newStatus : String) : World :=
  { w with state := { w.state with
             transactions := w.state.transactions.map (updateStatus transactionId newStatus) }
           log := w.log ++ [Event.commitStatus transactionId newStatus] }

/-- The call `localStorage.setItem("mockTransactions", JSON.stringify(list))`. -/
def World.setMockTransactions (w : World) (list : List Transaction) : World :=
  { w with storage := { w.storage with mockTransactions := Stored.array list }
           log := w.log ++ [Event.storageSet "mockTransactions"] }

/-- The call `localStorage.setItem("userTransactions", JSON.stringify(list))`. -/
def World.setUserTransactions (w : World) (list : List Transaction) : World :=
  { w with storage := { w.storage with userTransactions := Stored.array list }
           log := w.log ++ [Event.storageSet "userTransactions"] }

/-- Records the call `updateTransactionStatus(transactionId, \x7bstatus: newStatus\x7d)`. -/
def World.remoteUpdate (w : World) (transactionId newStatus : String) : World :=
  { w with log := w.log ++ [Event.remoteUpdate transactionId newStatus] }

/-- The function `handleCloseViewModal`. -/
def World.handleCloseViewModal (w : World) : World :=
  { w with state := { w.state with isViewModalOpen := false, currentTransaction := none } }

/-- The tail of the `try` block of `handleUpdateStatus`, reached when no branch threw:
close the modal if it shows this transaction, reset the action menu, bump the refresh
trigger. -/
def World.afterUpdate (w : World) (transactionId : String) : World :=
  let w :=
    if w.state.isViewModalOpen && (w.state.currentTransaction.bind (·.id)) == some transactionId
    then w.handleCloseViewModal else w
  let w := { w with state := { w.state with showActionMenu := none } }
  { w with state := { w.state with refreshTrigger := w.state.refreshTrigger + 1 } }

/-- The test `response.data && (response.data.code === "200" || response.data.status
=== "success")`. -/
def successShape : Option ResponseData → Bool
  | some d => d.code == some "200" || d.status == some "success"
  | none => false

/-- The remote/sample branch of `handleUpdateStatus`, from the loading toast to the end
of its inner `try`/`catch`. -/
def remoteBranch (transactionId newStatus : String) (remote : UpdateOutcome) (w : World) :
    World :=
  let w := w.toast Toast.loading
  let w := w.remoteUpdate transactionId newStatus
  match remote with
  | UpdateOutcome.response data =>
    if successShape data then
      let w := w.commitStatus transactionId newStatus
      let w := w.toast Toast.dismiss
      w.toast Toast.success
    else
      let w := w.toast Toast.dismiss
      if specificIds.contains transactionId then
        let w := w.commitStatus transactionId newStatus
        w.toast Toast.success
      else
        -- `throw new Error(...)` lands in the inner `catch`, where the id is again
        -- not a sample id and the error has no `response`
        let w := w.toast Toast.dismiss
        w.toast Toast.error
  | UpdateOutcome.throws _ =>
    let w := w.toast Toast.dismiss
    if specificIds.contains transactionId then
      let w := w.commitStatus transactionId newStatus
      w.toast Toast.success
    else
      w.toast Toast.error

/-- The whole of `handleUpdateStatus`; `remote` is the outcome the awaited
`updateTransactionStatus` call has if the handler makes it. A persisted collection
that `JSON.parse` rejects, or that is not an array (no `.map`/`.some`), throws into
the outer `catch`. -/
def handleUpdateStatus (transactionId newStatus : String) (remote : UpdateOutcome)
    (w : World) : World :=
  let w := w.setIsProcessing true
  let w :=
    if startsWith transactionId "mock-" then
      match w.storage.mockTransactions with
      | Stored.unparsable => w.toast Toast.error
      | Stored.notArray => w.toast Toast.error
      | stored =>
        let w := w.setMockTransactions (stored.records.map (updateStatus transactionId newStatus))
        let w := w.commitStatus transactionId newStatus
        let w := w.toast Toast.success
        w.afterUpdate transactionId
    else
      match w.storage.userTransactions with
      | Stored.unparsable => w.toast Toast.error
      | Stored.notArray => w.toast Toast.error
      | stored =>
        if stored.records.any (fun t => t.id == some transactionId) then
          let w := w.setUserTransactions
            (stored.records.map (updateStatus transactionId newStatus))
          let w := w.commitStatus transactionId newStatus
          let w := w.toast Toast.success
          let w := w.remoteUpdate transactionId newStatus
          w.afterUpdate transactionId
        else
          (remoteBranch transactionId newStatus remote w).afterUpdate transactionId
  w.setIsProcessing false

/-! ## Filtering and pagination -/

/-- The call `s.includes(sub)`: `sub` occurs in `s` as a contiguous run. -/
def includes (s sub : String) : Bool :=
  s.toList.tails.any fun t => sub.toList.isPrefixOf t

/-- Lower-casing of the ASCII letters; the `toLowerCase` of the examples. -/
def asciiLower (s : String) : String :=
  String.mk (s.toList.map Char.toLower)

/-- Truthiness of a value that is `undefined` or a boolean, as the operands of `||`
in the search test are. -/
def truthy (v : Option Bool) : Bool :=
  v.getD false

/-- The callback of `transactions.filter(...)` in the admin page. `toLowerCase` is
`String.prototype.toLowerCase`, taken as a parameter; an optional chain such as
`transaction.user?.name?.toLowerCase().includes(searchLower)` is `undefined` as soon as
one link is missing. -/
def filterCallback (toLowerCase : String → String) (filterStatus searchQuery : String)
    (transaction : Transaction) : Bool :=
  let statusMatch := filterStatus == "all" || transaction.status == some filterStatus
  let searchLower := toLowerCase searchQuery
  let idMatch := transaction.id.map fun s => includes (toLowerCase s) searchLower
  let userNameMatch :=
    (transaction.user.bind (·.name)).map fun s => includes (toLowerCase s) searchLower
  let userEmailMatch :=
    (transaction.user.bind (·.email)).map fun s => includes (toLowerCase s) searchLower
  statusMatch &&
    (searchQuery == "" || truthy idMatch || truthy userNameMatch || truthy userEmailMatch)

/-- The derived list `filteredTransactions` of the admin page. -/
def filteredTransactions (toLowerCase : String → String) (st : State) : List Transaction :=
  st.transactions.filter (filterCallback toLowerCase st.filterStatus st.searchQuery)

/-- The expression `Math.ceil(n / d)` for a length `n` and a page size `d > 0`; exact,
since the quotient of two such integers is never rounded across an integer. -/
def ceilDiv (n d : Nat) : Nat :=
  (n + d - 1) / d

/-- The call `list.slice(start, stop)` with integer arguments: a negative index counts
from the end, both indices are clamped to the length. -/
def slice {α : Type} (l : List α) (start stop : Int) : List α :=
  let len : Int := l.length
  let k : Int := if start < 0 then max (len + start) 0 else min start len
  let fin : Int := if stop < 0 then max (len + stop) 0 else min stop len
  (l.drop k.toNat).take (fin - k).toNat

/-- The derived value `totalPages` of the admin page. -/
def totalPages (toLowerCase : String → String) (st : State) : Nat :=
  ceilDiv (filteredTransactions toLowerCase st).length st.itemsPerPage

/-- The derived value `startIndex` of the admin page. -/
def startIndex (st : State) : Int :=
  ((st.currentPage : Int) - 1) * st.itemsPerPage

/-- The derived value `endIndex` of the admin page. -/
def endIndex (st : State) : Int :=
  startIndex st + st.itemsPerPage

/-- The derived list `currentTransactions` of the admin page: the displayed page. -/
def currentTransactions (toLowerCase : String → String) (st : State) : List Transaction :=
  slice (filteredTransactions toLowerCase st) (startIndex st) (endIndex st)

/-- The handler `(e) => setSearchQuery(e.target.value)` of the search input. -/
def setSearchQuery (value : String) (st : State) : State :=
  { st with searchQuery := value }

/-- The handler `(e) => setFilterStatus(e.target.value)` of the status select. -/
def setFilterStatus (value : String) (st : State) : State :=
  { st with filterStatus := value }

/-- The pagination of `Users.jsx` over the `users` state. -/
def Users.itemsPerPage : Nat := 7

/-- The derived value `totalPages` of `Users.jsx`. -/
def Users.totalPages {α : Type} (users : List α) : Nat :=
  ceilDiv users.length Users.itemsPerPage

/-- The derived value `startIndex` of `Users.jsx`. -/
def Users.startIndex (currentPage : Nat) : Int :=
  ((currentPage : Int) - 1) * Users.itemsPerPage

/-- The derived value `endIndex` of `Users.jsx`. -/
def Users.endIndex (currentPage : Nat) : Int :=
  Users.startIndex currentPage + Users.itemsPerPage

/-- The derived list `currentUsers` of `Users.jsx`. -/
def Users.currentUsers {α : Type} (users : List α) (currentPage : Nat) : List α :=
  slice users (Users.startIndex currentPage) (Users.endIndex currentPage)

/-- The page size of `TransactionHistory.jsx`. -/
def TransactionHistory.itemsPerPage : Nat := 6

/-- The derived value `totalPages` of `TransactionHistory.jsx`. -/
def TransactionHistory.totalPages {α : Type} (filteredTransactions : List α) : Nat :=
  ceilDiv filteredTransactions.length TransactionHistory.itemsPerPage

/-- The derived value `startIndex` of `TransactionHistory.jsx`. -/
def TransactionHistory.startIndex (currentPage : Nat) : Int :=
  ((currentPage : Int) - 1) * TransactionHistory.itemsPerPage

/-- The derived value `endIndex` of `TransactionHistory.jsx`. -/
def TransactionHistory.endIndex (currentPage : Nat) : Int :=
  TransactionHistory.startIndex currentPage + TransactionHistory.itemsPerPage

/-- The derived list `currentTransactions` of `TransactionHistory.jsx`. -/
def TransactionHistory.currentTransactions {α : Type} (filteredTransactions : List α)
    (currentPage : Nat) : List α :=
  slice filteredTransactions (TransactionHistory.startIndex currentPage)
    (TransactionHistory.endIndex currentPage)

/-- A 1-indexed pagination of `l` with page size `size`: the page count is
`ceil(n / size)`; page `p` of `1..count` holds the items at the positions
`(p-1)*size .. p*size-1` that exist, is not empty and has at most `size` items; and
the pages `1..count` concatenated give back `l`. -/
def IsPagination {α : Type} (size : Nat) (l : List α) (count : Nat) (page : Nat → List α) :
    Prop :=
  count = Nat.ceil ((l.length : ℚ) / (size : ℚ)) ∧
    (∀ p, 1 ≤ p → p ≤ count →
      page p = (l.drop ((p - 1) * size)).take size ∧
        (∀ i, (page p)[i]? = if i < size then l[(p - 1) * size + i]? else none) ∧
        page p ≠ [] ∧ (page p).length ≤ size) ∧
    ((List.range count).flatMap fun i => page (i + 1)) = l

/-- Ten records, three of them with the status "verified". -/
def tenRecords : List Transaction :=
  [ { id := some "t1", status := some "pending" },
    { id := some "t2", status := some "verified" },
    { id := some "t3", status := some "pending" },
    { id := some "t4", status := some "canceled" },
    { id := some "t5", status := some "verified" },
    { id := some "t6", status := some "pending" },
    { id := some "t7", status := some "waiting_verification" },
    { id := some "t8", status := some "pending" },
    { id := some "t9", status := some "verified" },
    { id := some "t10", status := some "pending" } ]

/-- The admin state showing `tenRecords` with the status filter "verified". -/
def tenRecordsVerified : State :=
  { transactions := tenRecords, filterStatus := "verified" }

/-- Eleven records shown on page 2, one of them "verified". -/
def elevenOnPageTwo : State :=
  { transactions := tenRecords ++ [{ id := some "t11", status := some "pending" }]
    currentPage := 2 }

/-- A record without id, user name and user email, and one with all three. -/
def searchRecords : State :=
  { transactions :=
      [ { status := some "pending" },
        { id := some "TX-9", user := some { name := some "Jon Snow", email := some "JON@x.io" } } ]
    searchQuery := "jon" }

/-! ## Pager buttons, page numbers, proof highlight and breadcrumbs -/

/-- The handler `() => setCurrentPage(Math.max(1, currentPage - 1))` of the admin
"Previous" button. On `Nat`, `currentPage - 1` is `0` for page 0 where JavaScript has
`-1`; below the `max` with 1 both give 1. -/
def clickPrevious (st : State) : State :=
  { st with currentPage := max 1 (st.currentPage - 1) }

/-- The handler `() => setCurrentPage(1)` of the admin first-page button. -/
def clickFirst (st : State) : State :=
  { st with currentPage := 1 }

/-- The handler `() => setCurrentPage(totalPages)` of the admin last-page button. -/
def clickLast (toLowerCase : String → String) (st : State) : State :=
  { st with currentPage := totalPages toLowerCase st }

/-- The handler `() => setCurrentPage(Math.min(totalPages, currentPage + 1))` of the
admin "Next" button. -/
def clickNext (toLowerCase : String → String) (st : State) : State :=
  { st with currentPage := min (totalPages toLowerCase st) (st.currentPage + 1) }

/-- The "Previous" handler of `Users.jsx`: the new current page. -/
def Users.clickPrevious (currentPage : Nat) : Nat :=
  max 1 (currentPage - 1)

/-- The first-page handler of `Users.jsx`. -/
def Users.clickFirst : Nat := 1

/-- The last-page handler of `Users.jsx`. -/
def Users.clickLast {α : Type} (users : List α) : Nat :=
  Users.totalPages users

/-- The "Next" handler of `Users.jsx`. -/
def Users.clickNext {α : Type} (users : List α) (currentPage : Nat) : Nat :=
  min (Users.totalPages users) (currentPage + 1)

/-- An entry of the array `getPageNumbers` returns: a page number or the text
"...". -/
inductive PageEntry where
  | page (n : Nat)
  | ellipsis
deriving DecidableEq, Repr

/-- The loop `for (let i = a; i <= b; i++) pageNumbers.push(i)`: the entries pushed. -/
def pushRange (a b : Nat) : List PageEntry :=
  (List.range' a (b + 1 - a)).map PageEntry.page

/-- The function `getPageNumbers` of `TransactionHistory.jsx`, over the derived value
`totalPages` and the state `currentPage`. -/
def TransactionHistory.getPageNumbers (totalPages currentPage : Nat) : List PageEntry :=
  let maxPagesToShow := 5
  if totalPages ≤ maxPagesToShow then
    pushRange 1 totalPages
  else
    let pageNumbers := [PageEntry.page 1]
    let startPage := max 2 (currentPage - 1)
    let endPage := min (totalPages - 1) (currentPage + 1)
    let pageNumbers :=
      if currentPage ≤ 3 then
        let endPage := min (maxPagesToShow - 1) (totalPages - 1)
        pageNumbers ++ pushRange 2 endPage
      else if currentPage ≥ totalPages - 2 then
        let startPage := max 2 (totalPages - (maxPagesToShow - 2))
        pageNumbers ++ pushRange startPage (totalPages - 1)
      else
        let pageNumbers :=
          if startPage > 2 then pageNumbers ++ [PageEntry.ellipsis] else pageNumbers
        let pageNumbers := pageNumbers ++ pushRange startPage endPage
        if endPage < totalPages - 1 then pageNumbers ++ [PageEntry.ellipsis] else pageNumbers
    pageNumbers ++ [PageEntry.page totalPages]

/-- The page numbers among the entries, in order. -/
def pageNumbersOf (l : List PageEntry) : List Nat :=
  l.filterMap fun e =>
    match e with
    | PageEntry.page n => some n
    | PageEntry.ellipsis => none

/-- Every two page numbers that follow each other directly in the list, with no
entry between them, are adjacent integers: a gap in the numbering is marked by an
ellipsis. -/
def gapsMarked : List PageEntry → Bool
  | PageEntry.page a :: PageEntry.page b :: rest =>
    decide (b = a + 1) && gapsMarked (PageEntry.page b :: rest)
  | _ :: rest => gapsMarked rest
  | [] => true

/-- The value `new Date(x).getTime()` in milliseconds; `none` is `NaN` (an invalid
date, as for a missing `x`). `parse` is the date parser of the platform. -/
def dateValue (parse : String → Option Int) (x : Option String) : Option Int :=
  x.bind parse

/-- The function `isNewPaymentProof` of `TransactionHistory.jsx`; `now` is
`new Date()` in milliseconds. The quotient is exact here; in floating point the
comparison with 24 has the same result, 24 being hit only by a difference of exactly
86400000. A comparison with `NaN` is false. -/
def TransactionHistory.isNewPaymentProof (parse : String → Option Int) (now : Int)
    (transaction : Transaction) : Bool :=
  if !truthyStr transaction.paymentProofUrl then false
  else
    match dateValue parse transaction.updatedAt with
    | none => false
    | some proofDate =>
      let hoursDiff : ℚ := ((now - proofDate : Int) : ℚ) / (1000 * 60 * 60)
      decide (hoursDiff < 24)

/-- An entry of the breadcrumb trail. -/
structure Breadcrumb where
  name : String
  path : String
deriving DecidableEq, Repr

/-- The call `s.split(sep)` for a one-character separator, on character lists. -/
def splitChars (sep : Char) : List Char → List (List Char)
  | [] => [[]]
  | c :: cs =>
    if c = sep then [] :: splitChars sep cs
    else
      match splitChars sep cs with
      | [] => [[c]]
      | seg :: rest => (c :: seg) :: rest

/-- The expression `name.charAt(0).toUpperCase() + name.slice(1)`. `upperFirst c` is
the text of the character `c` with `toUpperCase` applied to its first UTF-16 unit. -/
def formatName (upperFirst : Char → String) (name : String) : String :=
  match name.toList with
  | [] => ""
  | c :: rest => upperFirst c ++ String.mk rest

/-- The array `pathnames = location.pathname.split("/").filter((x) => x)`. -/
def pathnames (pathname : String) : List String :=
  ((splitChars '/' pathname.toList).filter fun x => !x.isEmpty).map String.mk

/-- The function `generateBreadcrumbs` of `Navbar.jsx` over `location.pathname`. -/
def generateBreadcrumbs (upperFirst : Char → String) (pathname : String) : List Breadcrumb :=
  let pathnames := pathnames pathname
  if pathnames.length = 0 then
    [{ name := "Home", path := "/" }]
  else
    let breadcrumbs : List Breadcrumb := [{ name := "Home", path := "/" }]
    (pathnames.foldl
      (fun (acc : String × List Breadcrumb) name =>
        let path := acc.1 ++ "/" ++ name
        let formattedName := formatName upperFirst name
        (path, acc.2 ++ [{ name := formattedName, path := path }]))
      ("", breadcrumbs)).2

/-- Upper-casing of an ASCII letter; the `upperFirst` of the examples. -/
def asciiUpperFirst (c : Char) : String :=
  String.mk [c.toUpper]

/-! ## Wishlist store (`WishlistContext.jsx`) -/

/-- A wishlist entry: an activity with its `id`; the other fields are opaque to the
store and kept as text. -/
structure WishlistItem where
  id : String
  fields : List (String × String) := []
deriving DecidableEq, Repr

/-- The `wishlist` state cell and the value under the `localStorage` key
"wishlist". -/
structure WishlistWorld where
  wishlist : List WishlistItem := []
  stored : Stored WishlistItem := Stored.absent
deriving DecidableEq, Repr

/-- The call `list.findIndex(p)`: the position of the first element that satisfies
`p`, or `-1`. -/
def findIndex {α : Type} (p : α → Bool) : List α → Int
  | [] => -1
  | a :: l => if p a then 0 else if findIndex p l = -1 then -1 else findIndex p l + 1

/-- The function `addToWishlist`: the returned flag and the state after the call. -/
def addToWishlist (activity : WishlistItem) (w : WishlistWorld) : Bool × WishlistWorld :=
  let updatedWishlist := w.wishlist
  let existingIndex := findIndex (fun item => item.id == activity.id) updatedWishlist
  if existingIndex = -1 then
    let updatedWishlist := updatedWishlist ++ [activity]
    (true, { wishlist := updatedWishlist, stored := Stored.array updatedWishlist })
  else
    (false, w)

/-- The function `removeFromWishlist`: the state after the call. It has no failing
path. -/
def removeFromWishlist (activityId : String) (w : WishlistWorld) : WishlistWorld :=
  let updatedWishlist := w.wishlist.filter fun item => item.id != activityId
  { wishlist := updatedWishlist, stored := Stored.array updatedWishlist }

/-- The function `isInWishlist`: it reads the `wishlist` state and returns a boolean;
it calls no setter and does not touch `localStorage`. -/
def isInWishlist (activityId : String) (w : WishlistWorld) : Bool :=
  w.wishlist.any fun item => item.id == activityId

/-- How the mount effect of `WishlistProvider` ends. -/
inductive MountOutcome where
  /-- The effect returns; `w` is the state after it. -/
  | done (w : WishlistWorld)
  /-- The text under "wishlist" is not JSON: `JSON.parse` throws inside the effect and
  nothing catches it. -/
  | throws
  /-- The text parses to a value that is not an array and `setWishlist` is called with
  it: the state is no list any more. -/
  | nonArray
deriving DecidableEq, Repr

/-- The `useEffect(..., [])` of `WishlistProvider`, run once on mount over the initial
state `useState([])`: `if (storedWishlist) setWishlist(JSON.parse(storedWishlist))`. -/
def wishlistProviderMount (stored : Stored WishlistItem) : MountOutcome :=
  match stored with
  | Stored.absent => MountOutcome.done { wishlist := [], stored := Stored.absent }
  | Stored.unparsable => MountOutcome.throws
  | Stored.notArray => MountOutcome.nonArray
  | Stored.array l => MountOutcome.done { wishlist := l, stored := Stored.array l }

/-- A mutating call on the wishlist store. -/
inductive WishlistOp where
  | add (activity : WishlistItem)
  | remove (activityId : String)
deriving DecidableEq, Repr

/-- The state after one mutating call. -/
def WishlistOp.apply : WishlistOp → WishlistWorld → WishlistWorld
  | WishlistOp.add activity, w => (addToWishlist activity w).2
  | WishlistOp.remove activityId, w => removeFromWishlist activityId w

/-- The state after a sequence of mutating calls, each made on the state the previous
one produced. -/
def runOps (ops : List WishlistOp) (w : WishlistWorld) : WishlistWorld :=
  ops.foldl (fun w op => op.apply w) w

/-- The ids of a wishlist, in order. -/
def wishlistIds (l : List WishlistItem) : List String := l.map (·.id)

/-- A wishlist with two entries, mirrored in storage. -/
def exampleWishlist : WishlistWorld :=
  { wishlist := [{ id := "a1" }, { id := "a2" }]
    stored := Stored.array [{ id := "a1" }, { id := "a2" }] }

/-! ## Vocabulary and examples of the statements -/

/-- The merged list written with the ids of the raw sources: remote records, then user
records whose id is not a remote id, then mock records whose id is neither a remote
nor a user id. -/
def mergedBySource (now : String) (ls : LocalStorage) (r u m : List Transaction) :
    List Transaction :=
  r.map (processApiTransaction now) ++
    (u.filter fun t => decide (t.id ∉ ids r)).map (processUserTransaction now ls) ++
    (m.filter fun t => decide (t.id ∉ ids r ∧ t.id ∉ ids u)).map tagMock

/-- Replaces the persisted userTransactions collection. -/
def World.withUserTransactions (w : World) (s : Stored Transaction) : World :=
  { w with storage := { w.storage with userTransactions := s } }

/-- Replaces the persisted mockTransactions collection. -/
def World.withMockTransactions (w : World) (s : Stored Transaction) : World :=
  { w with storage := { w.storage with mockTransactions := s } }

/-- The recognized success shape of a resolved update call: `response.data` truthy
with `code === "200"` or `status === "success"`. -/
def recognizedSuccess : UpdateOutcome → Bool
  | UpdateOutcome.response (some d) => d.code = some "200" ∨ d.status = some "success"
  | _ => false

/-- The effectful calls made between two worlds. -/
def newEvents (before after : World) : List Event :=
  after.log.drop before.log.length

/-- The remote update calls among a list of effects. -/
def remoteCalls (l : List Event) : List Event :=
  l.filter fun e =>
    match e with
    | Event.remoteUpdate _ _ => true
    | _ => false

/-- A storage whose mock collection holds one pending record with an id that does not
start with "mock-". -/
def plainMockWorld : World :=
  { storage :=
      { mockTransactions := Stored.array [{ id := some "abc", status := some "pending" }] } }

/-- A storage whose mock collection holds one pending record with a "mock-" id. -/
def prefixedMockWorld : World :=
  { storage :=
      { mockTransactions := Stored.array [{ id := some "mock-1", status := some "pending" }] } }

/-- The state after `fetchTransactions` on `plainMockWorld` with an empty remote
response. -/
def plainMockFetched : World :=
  fetchTransactions "2025-05-06T05:03:14.167Z" (FetchOutcome.ok []) plainMockWorld

/-- The state after `fetchTransactions` on `prefixedMockWorld` with an empty remote
response. -/
def prefixedMockFetched : World :=
  fetchTransactions "2025-05-06T05:03:14.167Z" (FetchOutcome.ok []) prefixedMockWorld

/-- A remote response with one pending record that is in no persisted collection. -/
def remoteOnly : FetchOutcome :=
  FetchOutcome.ok [{ id := some "R1", status := some "pending" }]

/-- The spec example: remote = [A], persisted user = [A, B], persisted mock = [B, C]. -/
def exampleRemote : FetchOutcome :=
  FetchOutcome.ok [{ id := some "A" }]

/-- The storage of the spec example. -/
def exampleWorld : World :=
  { storage :=
      { userTransactions := Stored.array [{ id := some "A" }, { id := some "B" }]
        mockTransactions := Stored.array [{ id := some "B" }, { id := some "C" }] } }

/-- The state after `fetchTransactions` on the spec example. -/
def exampleFetched : World :=
  fetchTransactions "2025-05-06T05:03:14.167Z" exampleRemote exampleWorld

/-- A storage whose user collection holds the one record U1. -/
def userOnlyWorld : World :=
  { storage := { userTransactions := Stored.array [{ id := some "U1" }] } }

/-- A remote record whose status, user name and first proof field are present but
empty. -/
def emptyFieldsRecord : Transaction :=
  { id := some "A", status := some "", userName := some ""
    user := some { name := some "Bob" }
    proofPaymentUrl := some "", paymentProofUrl := some "proof.png" }

/-- A storage whose mock collection holds one record with neither status nor
amount. -/
def bareMockWorld : World :=
  { storage := { mockTransactions := Stored.array [{ id := some "m1" }] } }

/-- A remote response that holds two records with the same id. -/
def duplicateRemote : FetchOutcome :=
  FetchOutcome.ok
    [{ id := some "A", status := some "pending" }, { id := some "A", status := some "verified" }]

/-! ## The merge of `fetchTransactions` -/

theorem ids_apiTransactions (now : String) (remote : FetchOutcome) :
    ids (apiTransactions now remote) = ids remote.records := by
  cases remote <;> simp [apiTransactions, FetchOutcome.records, ids, processApiTransaction]

theorem any_id_eq (l : List Transaction) (i : Option String) :
    (l.any fun t => t.id == i) = decide (i ∈ ids l) := by
  induction l with
  | nil => simp [ids]
  | cons a l ih =>
    simp only [List.any_cons, ih, ids, List.map_cons, List.mem_cons]
    by_cases h : a.id = i
    · simp [h]
    · have h2 : ¬ i = a.id := fun e => h e.symm
      simp [h, h2]

theorem filterMap_dedup (f : Transaction → Transaction) (api parsed : List Transaction) :
    (parsed.filterMap fun transaction =>
        if api.any (fun t => t.id == transaction.id) then none else some (f transaction)) =
      (parsed.filter fun t => decide (t.id ∉ ids api)).map f := by
  simp only [any_id_eq]
  induction parsed with
  | nil => rfl
  | cons a l ih =>
    by_cases hm : a.id ∈ ids api
    · simp only [List.filterMap_cons, List.filter_cons, hm, decide_True, if_true,
        not_true_eq_false, decide_False, Bool.false_eq_true, if_false]
      exact ih
    · simp only [List.filterMap_cons, List.filter_cons, hm, decide_False, Bool.false_eq_true,
        if_false, not_false_eq_true, decide_True, if_true, List.map_cons]
      rw [ih]

theorem userTransactions_eq (now : String) (ls : LocalStorage) (api : List Transaction) :
    userTransactions now ls api =
      (ls.userTransactions.records.filter fun t => decide (t.id ∉ ids api)).map
        (processUserTransaction now ls) := by
  unfold userTransactions
  cases h : ls.userTransactions <;> simp only [Stored.records, List.filter_nil, List.map_nil]
  exact filterMap_dedup _ _ _

theorem ids_userTransactions (now : String) (ls : LocalStorage) (api : List Transaction) :
    ids (userTransactions now ls api) =
      ids (ls.userTransactions.records.filter fun t => decide (t.id ∉ ids api)) := by
  rw [userTransactions_eq]
  simp [ids, processUserTransaction]

theorem mockTransactions_eq (ls : LocalStorage) (api user : List Transaction) :
    mockTransactions ls api user =
      (ls.mockTransactions.records.filter fun t =>
        decide (t.id ∉ ids api ∧ t.id ∉ ids user)).map tagMock := by
  unfold mockTransactions
  cases h : ls.mockTransactions <;> simp only [Stored.records, List.filter_nil, List.map_nil]
  congr 1
  apply List.filter_congr
  intro t _
  rw [List.any_append, any_id_eq, any_id_eq]
  by_cases h1 : t.id ∈ ids api <;> by_cases h2 : t.id ∈ ids user <;> simp [h1, h2]

theorem ids_mockTransactions (ls : LocalStorage) (api user : List Transaction) :
    ids (mockTransactions ls api user) =
      ids (ls.mockTransactions.records.filter fun t =>
        decide (t.id ∉ ids api ∧ t.id ∉ ids user)) := by
  rw [mockTransactions_eq]
  simp [ids, tagMock]

theorem ids_append (a b : List Transaction) : ids (a ++ b) = ids a ++ ids b := by
  simp [ids]

theorem nodup_ids_filter (p : Transaction → Bool) (l : List Transaction)
    (h : (ids l).Nodup) : (ids (l.filter p)).Nodup :=
  h.sublist (List.filter_sublist l |>.map _)

theorem mem_ids_filter {p : Transaction → Bool} {l : List Transaction} {i : Option String}
    (h : i ∈ ids (l.filter p)) : ∃ t ∈ l, p t = true ∧ t.id = i := by
  simp only [ids, List.mem_map, List.mem_filter] at h
  obtain ⟨t, ⟨ht, hp⟩, rfl⟩ := h
  exact ⟨t, ht, hp, rfl⟩

/-- The list handed to `setTransactions`: the concatenation, or the samples when the
concatenation is empty. -/
theorem fetchTransactions_transactions (now : String) (remote : FetchOutcome) (w : World) :
    (fetchTransactions now remote w).state.transactions =
      if (apiTransactions now remote ++
            userTransactions now w.storage (apiTransactions now remote) ++
            mockTransactions w.storage (apiTransactions now remote)
              (userTransactions now w.storage (apiTransactions now remote))).length = 0
      then sampleTransactions
      else apiTransactions now remote ++
            userTransactions now w.storage (apiTransactions now remote) ++
            mockTransactions w.storage (apiTransactions now remote)
              (userTransactions now w.storage (apiTransactions now remote)) := by
  unfold fetchTransactions
  simp only [World.setTransactions, World.toast, World.fetchFailed]
  split_ifs <;> rfl

theorem ids_sampleTransactions : ids sampleTransactions = specificIds.map some := by
  simp [ids, sampleTransactions, specificIds, sampleTransaction, List.enum, List.enumFrom]

theorem nodup_ids_sampleTransactions : (ids sampleTransactions).Nodup := by
  rw [ids_sampleTransactions]
  simp [specificIds]

/-- The concatenation of the three processed sources has pairwise distinct ids when
each source has. -/
theorem nodup_ids_concat (now : String) (remote : FetchOutcome) (ls : LocalStorage)
    (hr : (ids remote.records).Nodup)
    (hu : (ids ls.userTransactions.records).Nodup)
    (hm : (ids ls.mockTransactions.records).Nodup) :
    (ids (apiTransactions now remote ++
            userTransactions now ls (apiTransactions now remote) ++
            mockTransactions ls (apiTransactions now remote)
              (userTransactions now ls (apiTransactions now remote)))).Nodup := by
  rw [ids_append, ids_append, List.nodup_append]
  refine ⟨?_, ?_, ?_⟩
  · rw [List.nodup_append]
    refine ⟨?_, ?_, ?_⟩
    · rw [ids_apiTransactions]; exact hr
    · rw [ids_userTransactions]; exact nodup_ids_filter _ _ hu
    · intro i hi hi2
      rw [ids_userTransactions] at hi2
      obtain ⟨t, _, hp, rfl⟩ := mem_ids_filter hi2
      exact (of_decide_eq_true hp) hi
  · rw [ids_mockTransactions]; exact nodup_ids_filter _ _ hm
  · intro i hi hi2
    rw [ids_mockTransactions] at hi2
    obtain ⟨t, _, hp, rfl⟩ := mem_ids_filter hi2
    have hq := of_decide_eq_true hp
    rcases List.mem_append.1 hi with h | h
    · exact hq.1 h
    · exact hq.2 h

/-- C1: when ids are unique within each of the three sources (remote response,
persisted userTransactions, persisted mockTransactions), the list that
`fetchTransactions` stores with `setTransactions` holds no two records with the same
id. -/
theorem fetchTransactions_ids_nodup (now : String) (remote : FetchOutcome) (w : World)
    (hr : (ids remote.records).Nodup)
    (hu : (ids w.storage.userTransactions.records).Nodup)
    (hm : (ids w.storage.mockTransactions.records).Nodup) :
    (ids (fetchTransactions now remote w).state.transactions).Nodup := by
  rw [fetchTransactions_transactions]
  split_ifs
  · exact nodup_ids_sampleTransactions
  · exact nodup_ids_concat now remote w.storage hr hu hm

theorem fetchTransactions_ids_nodup_witness :
    (ids (fetchTransactions "2025-05-06T05:03:14.167Z" exampleRemote
      exampleWorld).state.transactions).Nodup :=
  fetchTransactions_ids_nodup _ exampleRemote exampleWorld (by decide) (by decide) (by decide)

theorem mem_ids_filter_iff (r u : List Transaction) (i : Option String) (h : i ∉ ids r) :
    i ∈ ids (u.filter fun t => decide (t.id ∉ ids r)) ↔ i ∈ ids u := by
  constructor
  · intro hi
    obtain ⟨t, ht, _, rfl⟩ := mem_ids_filter hi
    exact List.mem_map_of_mem _ ht
  · intro hi
    obtain ⟨t, ht, rfl⟩ := List.mem_map.1 hi
    exact List.mem_map_of_mem _ (List.mem_filter.2 ⟨ht, decide_eq_true h⟩)

theorem concat_eq_mergedBySource (now : String) (remote : FetchOutcome) (ls : LocalStorage) :
    apiTransactions now remote ++
        userTransactions now ls (apiTransactions now remote) ++
        mockTransactions ls (apiTransactions now remote)
          (userTransactions now ls (apiTransactions now remote)) =
      mergedBySource now ls remote.records ls.userTransactions.records
        ls.mockTransactions.records := by
  unfold mergedBySource
  rw [mockTransactions_eq, ids_userTransactions, userTransactions_eq, ids_apiTransactions]
  have ha : apiTransactions now remote = remote.records.map (processApiTransaction now) := by
    cases remote <;> rfl
  rw [ha]
  congr 2
  apply List.filter_congr
  intro t _
  by_cases h1 : t.id ∈ ids remote.records
  · simp [h1]
  · simp only [h1, not_false_eq_true, true_and, mem_ids_filter_iff _ _ _ h1]

theorem mergedBySource_length_eq_zero (now : String) (ls : LocalStorage)
    (r u m : List Transaction) :
    (mergedBySource now ls r u m).length = 0 ↔ r = [] ∧ u = [] ∧ m = [] := by
  constructor
  · intro h
    simp only [mergedBySource, List.length_append, List.length_map, Nat.add_eq_zero,
      List.length_eq_zero] at h
    obtain ⟨⟨hr, hu⟩, hm⟩ := h
    subst hr
    simp only [ids, List.map_nil, List.not_mem_nil, not_false_eq_true, decide_True,
      List.filter_true, true_and] at hu hm
    subst hu
    simp only [List.map_nil, List.not_mem_nil, not_false_eq_true, decide_True,
      List.filter_true] at hm
    exact ⟨rfl, rfl, hm⟩
  · rintro ⟨rfl, rfl, rfl⟩
    rfl

theorem mem_ids {a : Transaction} {l : List Transaction} (h : a ∈ l) : a.id ∈ ids l :=
  List.mem_map_of_mem (fun x : Transaction => x.id) h

theorem ids_map_of_id_eq (f : Transaction → Transaction) (hf : ∀ t, (f t).id = t.id)
    (l : List Transaction) : ids (l.map f) = ids l := by
  induction l with
  | nil => rfl
  | cons a l ih =>
    simp only [ids, List.map_cons, List.cons.injEq] at ih ⊢
    exact ⟨hf a, ih⟩

theorem sources_map_of_source_eq (f : Transaction → Transaction) (s : Option String)
    (hf : ∀ t, (f t).source = s) (l : List Transaction) :
    sources (l.map f) = List.replicate l.length s := by
  induction l with
  | nil => rfl
  | cons a l ih =>
    simp only [sources, List.map_cons, List.length_cons, List.replicate_succ,
      List.cons.injEq] at ih ⊢
    exact ⟨hf a, ih⟩

theorem ids_mergedBySource (now : String) (ls : LocalStorage) (r u m : List Transaction) :
    ids (mergedBySource now ls r u m) =
      ids r ++ ids (u.filter fun t => decide (t.id ∉ ids r)) ++
        ids (m.filter fun t => decide (t.id ∉ ids r ∧ t.id ∉ ids u)) := by
  unfold mergedBySource
  rw [ids_append, ids_append, ids_map_of_id_eq (processApiTransaction now) (fun _ => rfl),
    ids_map_of_id_eq (processUserTransaction now ls) (fun _ => rfl),
    ids_map_of_id_eq tagMock (fun _ => rfl)]

theorem sources_append (a b : List Transaction) : sources (a ++ b) = sources a ++ sources b := by
  simp [sources]

theorem sources_mergedBySource (now : String) (ls : LocalStorage) (r u m : List Transaction) :
    sources (mergedBySource now ls r u m) =
      List.replicate r.length (some "api") ++
        List.replicate (u.filter fun t => decide (t.id ∉ ids r)).length
          (some "userTransactions") ++
        List.replicate (m.filter fun t => decide (t.id ∉ ids r ∧ t.id ∉ ids u)).length
          (some "mockTransactions") := by
  unfold mergedBySource
  rw [sources_append, sources_append,
    sources_map_of_source_eq (processApiTransaction now) (some "api") (fun _ => rfl),
    sources_map_of_source_eq (processUserTransaction now ls) (some "userTransactions")
      (fun _ => rfl),
    sources_map_of_source_eq tagMock (some "mockTransactions") (fun _ => rfl)]

theorem mem_mergedBySource {now : String} {ls : LocalStorage} {r u m : List Transaction}
    {t : Transaction} (h : t ∈ mergedBySource now ls r u m) :
    (t.id ∈ ids r ∧ t.source = some "api") ∨
      (t.id ∉ ids r ∧ t.id ∈ ids u ∧ t.source = some "userTransactions") ∨
      (t.id ∉ ids r ∧ t.id ∉ ids u ∧ t.id ∈ ids m ∧ t.source = some "mockTransactions") := by
  simp only [mergedBySource, List.mem_append, List.mem_map, List.mem_filter,
    decide_eq_true_eq] at h
  rcases h with (⟨a, ha, rfl⟩ | ⟨a, ⟨ha, hr⟩, rfl⟩) | ⟨a, ⟨ha, hr, hu⟩, rfl⟩
  · exact Or.inl ⟨mem_ids (a := a) ha, rfl⟩
  · exact Or.inr (Or.inl ⟨hr, mem_ids (a := a) ha, rfl⟩)
  · exact Or.inr (Or.inr ⟨hr, hu, mem_ids (a := a) ha, rfl⟩)

/-- C2: when at least one source contributes a record, the list stored by
`fetchTransactions` is, in this order, every remote record (tagged "api"), every
persisted user transaction whose id is not a remote id (tagged "userTransactions"),
every persisted mock transaction whose id is neither a remote nor a user id (tagged
"mockTransactions"), each group in its original order with its ids kept; hence a
record whose id occurs in the remote source carries the tag "api", and one whose id
occurs in the user source but not in the remote source carries "userTransactions". -/
theorem fetchTransactions_merge_order (now : String) (remote : FetchOutcome) (w : World)
    (hne : remote.records ≠ [] ∨ w.storage.userTransactions.records ≠ [] ∨
      w.storage.mockTransactions.records ≠ []) :
    (fetchTransactions now remote w).state.transactions =
        mergedBySource now w.storage remote.records w.storage.userTransactions.records
          w.storage.mockTransactions.records ∧
      ids (fetchTransactions now remote w).state.transactions =
        ids remote.records ++
          ids (w.storage.userTransactions.records.filter fun t =>
            decide (t.id ∉ ids remote.records)) ++
          ids (w.storage.mockTransactions.records.filter fun t =>
            decide (t.id ∉ ids remote.records ∧
              t.id ∉ ids w.storage.userTransactions.records)) ∧
      sources (fetchTransactions now remote w).state.transactions =
        List.replicate remote.records.length (some "api") ++
          List.replicate (w.storage.userTransactions.records.filter fun t =>
            decide (t.id ∉ ids remote.records)).length (some "userTransactions") ++
          List.replicate (w.storage.mockTransactions.records.filter fun t =>
            decide (t.id ∉ ids remote.records ∧
              t.id ∉ ids w.storage.userTransactions.records)).length
            (some "mockTransactions") ∧
      (∀ t ∈ (fetchTransactions now remote w).state.transactions,
        t.id ∈ ids remote.records → t.source = some "api") ∧
      (∀ t ∈ (fetchTransactions now remote w).state.transactions,
        t.id ∉ ids remote.records → t.id ∈ ids w.storage.userTransactions.records →
          t.source = some "userTransactions") := by
  have h : (fetchTransactions now remote w).state.transactions =
      mergedBySource now w.storage remote.records w.storage.userTransactions.records
        w.storage.mockTransactions.records := by
    rw [fetchTransactions_transactions, concat_eq_mergedBySource,
      if_neg]
    rw [mergedBySource_length_eq_zero]
    rintro ⟨h1, h2, h3⟩
    rcases hne with h | h | h
    · exact h h1
    · exact h h2
    · exact h h3
  rw [h]
  refine ⟨rfl, ids_mergedBySource _ _ _ _ _, sources_mergedBySource _ _ _ _ _, ?_, ?_⟩
  · intro t ht hr
    rcases mem_mergedBySource ht with h1 | h1 | h1
    · exact h1.2
    · exact absurd hr h1.1
    · exact absurd hr h1.1
  · intro t ht hr hu
    rcases mem_mergedBySource ht with h1 | h1 | h1
    · exact absurd h1.1 hr
    · exact h1.2.2
    · exact absurd hu h1.2.1

theorem fetchTransactions_merge_order_witness :
    ids (fetchTransactions "2025-05-06T05:03:14.167Z" exampleRemote
        exampleWorld).state.transactions = [some "A", some "B", some "C"] ∧
      sources (fetchTransactions "2025-05-06T05:03:14.167Z" exampleRemote
        exampleWorld).state.transactions =
        [some "api", some "userTransactions", some "mockTransactions"] := by
  have h := fetchTransactions_merge_order "2025-05-06T05:03:14.167Z" exampleRemote
    exampleWorld (Or.inl (by decide))
  rw [h.2.1, h.2.2.1]
  constructor <;> decide

theorem sampleTransactions_all (t : Transaction) (ht : t ∈ sampleTransactions) :
    t.source = some "sample" ∧ t.status = some "waiting_verification" := by
  simp only [sampleTransactions, specificIds, List.enum, List.enumFrom, List.map_cons,
    List.map_nil, List.mem_cons, List.mem_singleton, List.not_mem_nil, or_false] at ht
  rcases ht with rfl | rfl | rfl <;> exact ⟨rfl, rfl⟩

/-- C3: the list stored by `fetchTransactions` is never empty. When the three sources
contribute no record it is the three synthesized records, which carry the three fixed
placeholder ids, the source "sample" and the status "waiting_verification"; when a
source contributes a record it is the non-empty concatenation of the processed
sources and holds no record with source "sample". -/
theorem fetchTransactions_never_empty (now : String) (remote : FetchOutcome) (w : World) :
    (fetchTransactions now remote w).state.transactions ≠ [] ∧
      ((remote.records = [] ∧ w.storage.userTransactions.records = [] ∧
          w.storage.mockTransactions.records = []) →
        (fetchTransactions now remote w).state.transactions = sampleTransactions ∧
          (fetchTransactions now remote w).state.transactions.length = 3 ∧
          ids (fetchTransactions now remote w).state.transactions = specificIds.map some ∧
          ∀ t ∈ (fetchTransactions now remote w).state.transactions,
            t.source = some "sample" ∧ t.status = some "waiting_verification") ∧
      (¬ (remote.records = [] ∧ w.storage.userTransactions.records = [] ∧
          w.storage.mockTransactions.records = []) →
        (fetchTransactions now remote w).state.transactions =
            apiTransactions now remote ++
              userTransactions now w.storage (apiTransactions now remote) ++
              mockTransactions w.storage (apiTransactions now remote)
                (userTransactions now w.storage (apiTransactions now remote)) ∧
          ∀ t ∈ (fetchTransactions now remote w).state.transactions,
            t.source ≠ some "sample") := by
  have hs : ∀ h : (remote.records = [] ∧ w.storage.userTransactions.records = [] ∧
      w.storage.mockTransactions.records = []),
      (fetchTransactions now remote w).state.transactions = sampleTransactions := by
    intro h
    rw [fetchTransactions_transactions, concat_eq_mergedBySource, if_pos]
    exact (mergedBySource_length_eq_zero _ _ _ _ _).2 h
  have hc : ∀ h : ¬ (remote.records = [] ∧ w.storage.userTransactions.records = [] ∧
      w.storage.mockTransactions.records = []),
      (fetchTransactions now remote w).state.transactions =
        apiTransactions now remote ++
          userTransactions now w.storage (apiTransactions now remote) ++
          mockTransactions w.storage (apiTransactions now remote)
            (userTransactions now w.storage (apiTransactions now remote)) := by
    intro h
    rw [fetchTransactions_transactions, if_neg]
    rw [concat_eq_mergedBySource, mergedBySource_length_eq_zero]
    exact h
  refine ⟨?_, ?_, ?_⟩
  · by_cases h : (remote.records = [] ∧ w.storage.userTransactions.records = [] ∧
        w.storage.mockTransactions.records = [])
    · rw [hs h]
      decide
    · rw [hc h, concat_eq_mergedBySource]
      intro he
      exact h ((mergedBySource_length_eq_zero now w.storage _ _ _).1 (by rw [he]; rfl))
  · intro h
    rw [hs h]
    exact ⟨rfl, rfl, ids_sampleTransactions, sampleTransactions_all⟩
  · intro h
    refine ⟨hc h, ?_⟩
    rw [hc h, concat_eq_mergedBySource]
    intro t ht
    rcases mem_mergedBySource ht with h1 | h1 | h1
    · rw [h1.2]; decide
    · rw [h1.2.2]; decide
    · rw [h1.2.2.2]; decide

theorem fetchTransactions_never_empty_witness :
    (fetchTransactions "2025-05-06T05:03:14.167Z" FetchOutcome.throws
        { }).state.transactions = sampleTransactions ∧
      ∀ t ∈ (fetchTransactions "2025-05-06T05:03:14.167Z" exampleRemote
        exampleWorld).state.transactions, t.source ≠ some "sample" :=
  ⟨((fetchTransactions_never_empty "2025-05-06T05:03:14.167Z" FetchOutcome.throws
      { }).2.1 ⟨rfl, rfl, rfl⟩).1,
   ((fetchTransactions_never_empty "2025-05-06T05:03:14.167Z" exampleRemote
      exampleWorld).2.2 (by decide)).2⟩

/-- The state and effects of `fetchTransactions` depend on the storage only through
the two processed local lists. -/
theorem fetchTransactions_congr (now : String) (remote : FetchOutcome) (w1 w2 : World)
    (hstate : w1.state = w2.state) (hlog : w1.log = w2.log)
    (hu : ∀ api, userTransactions now w1.storage api = userTransactions now w2.storage api)
    (hm : ∀ api user, mockTransactions w1.storage api user =
      mockTransactions w2.storage api user) :
    (fetchTransactions now remote w1).state = (fetchTransactions now remote w2).state ∧
      (fetchTransactions now remote w1).log = (fetchTransactions now remote w2).log := by
  unfold fetchTransactions
  simp only [World.setTransactions, World.toast, World.fetchFailed, hstate, hlog, hu, hm]
  split_ifs <;> exact ⟨rfl, rfl⟩

theorem userTransactions_of_failed (now : String) (w : World) (s : Stored Transaction)
    (hs : s = Stored.absent ∨ s = Stored.unparsable ∨ s = Stored.notArray)
    (api : List Transaction) :
    userTransactions now (w.withUserTransactions s).storage api =
      userTransactions now (w.withUserTransactions (Stored.array [])).storage api := by
  rcases hs with rfl | rfl | rfl <;> rfl

theorem mockTransactions_of_failed (w : World) (s : Stored Transaction)
    (hs : s = Stored.absent ∨ s = Stored.unparsable ∨ s = Stored.notArray)
    (api user : List Transaction) :
    mockTransactions (w.withMockTransactions s).storage api user =
      mockTransactions (w.withMockTransactions (Stored.array [])).storage api user := by
  rcases hs with rfl | rfl | rfl <;> rfl

theorem newEvents_of_log {before after : World} {l : List Event}
    (h : after.log = before.log ++ l) : newEvents before after = l := by
  simp [newEvents, h]

/-- A failed source gives the list, the state and the effects of an empty source: a
remote call that throws, or resolves without an array, gives the result computed with
an empty remote array; a persisted collection that is absent, unparsable or not an
array gives the state and the effects computed with that collection the empty array,
the other sources unchanged. -/
theorem fetchTransactions_failed_source (now : String) (remote : FetchOutcome) (w : World)
    (s : Stored Transaction)
    (hs : s = Stored.absent ∨ s = Stored.unparsable ∨ s = Stored.notArray) :
    fetchTransactions now FetchOutcome.throws w = fetchTransactions now (FetchOutcome.ok []) w ∧
      fetchTransactions now FetchOutcome.notArray w =
        fetchTransactions now (FetchOutcome.ok []) w ∧
      (fetchTransactions now remote (w.withUserTransactions s)).state =
        (fetchTransactions now remote (w.withUserTransactions (Stored.array []))).state ∧
      (fetchTransactions now remote (w.withUserTransactions s)).log =
        (fetchTransactions now remote (w.withUserTransactions (Stored.array []))).log ∧
      (fetchTransactions now remote (w.withMockTransactions s)).state =
        (fetchTransactions now remote (w.withMockTransactions (Stored.array []))).state ∧
      (fetchTransactions now remote (w.withMockTransactions s)).log =
        (fetchTransactions now remote (w.withMockTransactions (Stored.array []))).log ∧
      (fetchTransactions now remote w).state.loading = false := by
  refine ⟨rfl, rfl, ?_, ?_, ?_, ?_, ?_⟩
  · exact (fetchTransactions_congr now remote (w.withUserTransactions s)
      (w.withUserTransactions (Stored.array [])) rfl rfl
      (userTransactions_of_failed now w s hs) (fun _ _ => rfl)).1
  · exact (fetchTransactions_congr now remote (w.withUserTransactions s)
      (w.withUserTransactions (Stored.array [])) rfl rfl
      (userTransactions_of_failed now w s hs) (fun _ _ => rfl)).2
  · exact (fetchTransactions_congr now remote (w.withMockTransactions s)
      (w.withMockTransactions (Stored.array [])) rfl rfl
      (fun _ => rfl) (mockTransactions_of_failed w s hs)).1
  · exact (fetchTransactions_congr now remote (w.withMockTransactions s)
      (w.withMockTransactions (Stored.array [])) rfl rfl
      (fun _ => rfl) (mockTransactions_of_failed w s hs)).2
  · rfl

/-- Whenever the remote source contributes no record, the run of `fetchTransactions`
stores its list and then ends in the outer `catch`: `apiError` is set and an error
toast is the last effect. -/
theorem fetchTransactions_no_api (now : String) (remote : FetchOutcome) (w : World)
    (h : remote.records = []) :
    (fetchTransactions now remote w).state.apiError ≠ none ∧
      ∃ l, (fetchTransactions now remote w).log =
        w.log ++ [Event.setTransactions l, Event.toast Toast.error] := by
  have hapi : apiTransactions now remote = [] := by
    cases remote with
    | throws => rfl
    | notArray => rfl
    | ok records =>
      have hr : records = [] := h
      rw [hr]
      rfl
  unfold fetchTransactions
  simp only [hapi, List.nil_append, List.length_nil, gt_iff_lt, Nat.lt_irrefl, if_false,
    World.setTransactions, World.toast, World.fetchFailed, List.length_append]
  split_ifs with h1 h2 h3
  · exact ⟨by simp, _, by simp only [List.append_assoc, List.singleton_append]; rfl⟩
  · exact ⟨by simp, _, by simp only [List.append_assoc, List.singleton_append]; rfl⟩
  · exact ⟨by simp, _, by simp only [List.append_assoc, List.singleton_append]; rfl⟩
  · omega

/-- C4 fails on the code in its last clause. A remote call that throws still gives the
list of an empty remote source, so the sources fail independently as far as the stored
list goes; but the run then calls `toast.info` or `toast.warning`, which react-hot-toast
does not have, and ends in the outer `catch`: `apiError` is set and an error toast is
shown. With the remote call throwing and the persisted user transaction U1, the list
[U1] is stored and the run ends with "Failed to fetch transactions". -/
theorem fetchTransactions_failure_reported (now : String) (w : World) :
    fetchTransactions now FetchOutcome.throws w = fetchTransactions now (FetchOutcome.ok []) w ∧
      (fetchTransactions now FetchOutcome.throws w).state.apiError ≠ none ∧
      Event.toast Toast.error ∈ newEvents w (fetchTransactions now FetchOutcome.throws w) ∧
      ids (fetchTransactions "2025-05-06T05:03:14.167Z" FetchOutcome.throws
        userOnlyWorld).state.transactions = [some "U1"] ∧
      sources (fetchTransactions "2025-05-06T05:03:14.167Z" FetchOutcome.throws
        userOnlyWorld).state.transactions = [some "userTransactions"] ∧
      (fetchTransactions "2025-05-06T05:03:14.167Z" FetchOutcome.throws
        userOnlyWorld).state.apiError =
        some "Failed to fetch transactions: toast.info is not a function" ∧
      (newEvents userOnlyWorld (fetchTransactions "2025-05-06T05:03:14.167Z"
        FetchOutcome.throws userOnlyWorld)).getLast? = some (Event.toast Toast.error) := by
  obtain ⟨h1, l, h2⟩ := fetchTransactions_no_api now FetchOutcome.throws w rfl
  refine ⟨rfl, h1, ?_, ?_, ?_, ?_, ?_⟩
  · rw [newEvents_of_log h2]
    simp
  · decide
  · decide
  · decide
  · decide

/-! ## The branches of `handleUpdateStatus` -/

@[simp] theorem toast_state (w : World) (t : Toast) : (w.toast t).state = w.state := rfl

@[simp] theorem toast_storage (w : World) (t : Toast) : (w.toast t).storage = w.storage := rfl

@[simp] theorem toast_log (w : World) (t : Toast) :
    (w.toast t).log = w.log ++ [Event.toast t] := rfl

@[simp] theorem remoteUpdate_state (w : World) (i s : String) :
    (w.remoteUpdate i s).state = w.state := rfl

@[simp] theorem remoteUpdate_storage (w : World) (i s : String) :
    (w.remoteUpdate i s).storage = w.storage := rfl

@[simp] theorem remoteUpdate_log (w : World) (i s : String) :
    (w.remoteUpdate i s).log = w.log ++ [Event.remoteUpdate i s] := rfl

@[simp] theorem commitStatus_storage (w : World) (i s : String) :
    (w.commitStatus i s).storage = w.storage := rfl

@[simp] theorem commitStatus_log (w : World) (i s : String) :
    (w.commitStatus i s).log = w.log ++ [Event.commitStatus i s] := rfl

@[simp] theorem commitStatus_state (w : World) (i s : String) :
    (w.commitStatus i s).state =
      { w.state with transactions := w.state.transactions.map (updateStatus i s) } := rfl

@[simp] theorem setMockTransactions_state (w : World) (l : List Transaction) :
    (w.setMockTransactions l).state = w.state := rfl

@[simp] theorem setMockTransactions_log (w : World) (l : List Transaction) :
    (w.setMockTransactions l).log = w.log ++ [Event.storageSet "mockTransactions"] := rfl

@[simp] theorem setMockTransactions_storage (w : World) (l : List Transaction) :
    (w.setMockTransactions l).storage =
      { w.storage with mockTransactions := Stored.array l } := rfl

@[simp] theorem setUserTransactions_state (w : World) (l : List Transaction) :
    (w.setUserTransactions l).state = w.state := rfl

@[simp] theorem setUserTransactions_log (w : World) (l : List Transaction) :
    (w.setUserTransactions l).log = w.log ++ [Event.storageSet "userTransactions"] := rfl

@[simp] theorem setUserTransactions_storage (w : World) (l : List Transaction) :
    (w.setUserTransactions l).storage =
      { w.storage with userTransactions := Stored.array l } := rfl

@[simp] theorem setIsProcessing_storage (w : World) (b : Bool) :
    (w.setIsProcessing b).storage = w.storage := rfl

@[simp] theorem setIsProcessing_log (w : World) (b : Bool) :
    (w.setIsProcessing b).log = w.log := rfl

@[simp] theorem setIsProcessing_state (w : World) (b : Bool) :
    (w.setIsProcessing b).state = { w.state with isProcessing := b } := rfl

@[simp] theorem afterUpdate_storage (w : World) (i : String) :
    (w.afterUpdate i).storage = w.storage := by
  unfold World.afterUpdate World.handleCloseViewModal
  split_ifs <;> rfl

@[simp] theorem afterUpdate_log (w : World) (i : String) : (w.afterUpdate i).log = w.log := by
  unfold World.afterUpdate World.handleCloseViewModal
  split_ifs <;> rfl

@[simp] theorem afterUpdate_transactions (w : World) (i : String) :
    (w.afterUpdate i).state.transactions = w.state.transactions := by
  unfold World.afterUpdate World.handleCloseViewModal
  split_ifs <;> rfl

@[simp] theorem afterUpdate_showActionMenu (w : World) (i : String) :
    (w.afterUpdate i).state.showActionMenu = none := by
  unfold World.afterUpdate World.handleCloseViewModal
  split_ifs <;> rfl

@[simp] theorem afterUpdate_refreshTrigger (w : World) (i : String) :
    (w.afterUpdate i).state.refreshTrigger = w.state.refreshTrigger + 1 := by
  unfold World.afterUpdate World.handleCloseViewModal
  split_ifs <;> rfl

theorem fetchTransactions_storage (now : String) (remote : FetchOutcome) (w : World) :
    (fetchTransactions now remote w).storage = w.storage := by
  unfold fetchTransactions
  simp only [World.setTransactions, World.toast, World.fetchFailed]
  split_ifs <;> rfl

/-- The mock branch of `handleUpdateStatus`, taken when the id starts with "mock-" and
the persisted mock collection is absent or an array. -/
theorem handleUpdateStatus_mock_branch (transactionId newStatus : String)
    (remote : UpdateOutcome) (w : World)
    (hp : startsWith transactionId "mock-" = true)
    (hs : w.storage.mockTransactions ≠ Stored.unparsable ∧
      w.storage.mockTransactions ≠ Stored.notArray) :
    (handleUpdateStatus transactionId newStatus remote w).storage.mockTransactions =
        Stored.array
          (w.storage.mockTransactions.records.map (updateStatus transactionId newStatus)) ∧
      (handleUpdateStatus transactionId newStatus remote w).state.transactions =
        w.state.transactions.map (updateStatus transactionId newStatus) ∧
      (handleUpdateStatus transactionId newStatus remote w).log =
        w.log ++ [Event.storageSet "mockTransactions",
          Event.commitStatus transactionId newStatus, Event.toast Toast.success] ∧
      (handleUpdateStatus transactionId newStatus remote w).state.showActionMenu = none ∧
      (handleUpdateStatus transactionId newStatus remote w).state.refreshTrigger =
        w.state.refreshTrigger + 1 := by
  unfold handleUpdateStatus
  simp only [hp, if_true, setIsProcessing_storage]
  cases h : w.storage.mockTransactions with
  | unparsable => exact absurd h hs.1
  | notArray => exact absurd h hs.2
  | absent => simp
  | array l => simp

theorem any_id_some (l : List Transaction) (i : String) :
    (l.any fun t => t.id == some i) = decide (some i ∈ ids l) :=
  any_id_eq l (some i)

/-- The userTransactions branch of `handleUpdateStatus`, taken when the id does not
start with "mock-" and occurs in the persisted user collection. -/
theorem handleUpdateStatus_user_branch (transactionId newStatus : String)
    (remote : UpdateOutcome) (w : World)
    (hp : startsWith transactionId "mock-" = false)
    (hmem : some transactionId ∈ ids w.storage.userTransactions.records) :
    (handleUpdateStatus transactionId newStatus remote w).storage.userTransactions =
        Stored.array
          (w.storage.userTransactions.records.map (updateStatus transactionId newStatus)) ∧
      (handleUpdateStatus transactionId newStatus remote w).state.transactions =
        w.state.transactions.map (updateStatus transactionId newStatus) ∧
      (handleUpdateStatus transactionId newStatus remote w).log =
        w.log ++ [Event.storageSet "userTransactions",
          Event.commitStatus transactionId newStatus, Event.toast Toast.success,
          Event.remoteUpdate transactionId newStatus] ∧
      (handleUpdateStatus transactionId newStatus remote w).state.showActionMenu = none ∧
      (handleUpdateStatus transactionId newStatus remote w).state.refreshTrigger =
        w.state.refreshTrigger + 1 := by
  unfold handleUpdateStatus
  simp only [hp, setIsProcessing_storage]
  cases h : w.storage.userTransactions with
  | unparsable => rw [h] at hmem; simp [Stored.records, ids] at hmem
  | notArray => rw [h] at hmem; simp [Stored.records, ids] at hmem
  | absent => rw [h] at hmem; simp [Stored.records, ids] at hmem
  | array l =>
    rw [h] at hmem
    have ha : (l.any fun t => t.id == some transactionId) = true := by
      rw [any_id_some]; exact decide_eq_true hmem
    simp [Stored.records, ha]

/-- The remote/sample branch of `handleUpdateStatus`, taken when the id does not start
with "mock-" and the persisted user collection is absent or an array without it. -/
theorem handleUpdateStatus_remote_branch (transactionId newStatus : String)
    (remote : UpdateOutcome) (w : World)
    (hp : startsWith transactionId "mock-" = false)
    (hs : w.storage.userTransactions ≠ Stored.unparsable ∧
      w.storage.userTransactions ≠ Stored.notArray)
    (hmem : some transactionId ∉ ids w.storage.userTransactions.records) :
    handleUpdateStatus transactionId newStatus remote w =
      (((remoteBranch transactionId newStatus remote (w.setIsProcessing true)).afterUpdate
        transactionId).setIsProcessing false) := by
  unfold handleUpdateStatus
  simp only [hp, setIsProcessing_storage]
  cases h : w.storage.userTransactions with
  | unparsable => exact absurd h hs.1
  | notArray => exact absurd h hs.2
  | absent => simp [Stored.records]
  | array l =>
    rw [h] at hmem
    have ha : (l.any fun t => t.id == some transactionId) = false := by
      rw [any_id_some]; exact decide_eq_false hmem
    simp [Stored.records, ha]

theorem recognizedSuccess_response (data : Option ResponseData) :
    recognizedSuccess (UpdateOutcome.response data) = successShape data := by
  cases data with
  | none => rfl
  | some d =>
    simp only [recognizedSuccess, successShape]
    by_cases h1 : d.code = some "200" <;> by_cases h2 : d.status = some "success" <;>
      simp [h1, h2]

/-- What the remote/sample branch does to the in-memory list and which calls it
makes. -/
theorem remoteBranch_result (transactionId newStatus : String) (remote : UpdateOutcome)
    (w : World) :
    (remoteBranch transactionId newStatus remote w).storage = w.storage ∧
      (remoteBranch transactionId newStatus remote w).state.transactions =
        (if recognizedSuccess remote || specificIds.contains transactionId
          then w.state.transactions.map (updateStatus transactionId newStatus)
          else w.state.transactions) ∧
      (∃ l, (remoteBranch transactionId newStatus remote w).log =
          w.log ++ l ∧
        remoteCalls l = [Event.remoteUpdate transactionId newStatus] ∧
        (Event.commitStatus transactionId newStatus ∈ l ↔
          (recognizedSuccess remote = true ∨ transactionId ∈ specificIds)) ∧
        (recognizedSuccess remote = false → transactionId ∉ specificIds →
          Event.toast Toast.error ∈ l)) := by
  by_cases hsample : transactionId ∈ specificIds
  · have hc : specificIds.contains transactionId = true := by simpa using hsample
    cases remote with
    | throws st =>
      refine ⟨?_, ?_, [Event.toast Toast.loading, Event.remoteUpdate transactionId newStatus,
        Event.toast Toast.dismiss, Event.commitStatus transactionId newStatus,
        Event.toast Toast.success], ?_, ?_, ?_, ?_⟩ <;>
        simp [remoteBranch, hc, hsample, recognizedSuccess, remoteCalls]
    | response data =>
      by_cases hok : recognizedSuccess (UpdateOutcome.response data) = true
      · have hd : successShape data = true := by
          rw [← recognizedSuccess_response]; exact hok
        refine ⟨?_, ?_, [Event.toast Toast.loading,
          Event.remoteUpdate transactionId newStatus,
          Event.commitStatus transactionId newStatus, Event.toast Toast.dismiss,
          Event.toast Toast.success], ?_, ?_, ?_, ?_⟩ <;>
          simp [remoteBranch, hc, hsample, hok, hd, remoteCalls]
      · have hd : successShape data = false := by
          rw [← recognizedSuccess_response]; simpa using hok
        refine ⟨?_, ?_, [Event.toast Toast.loading,
          Event.remoteUpdate transactionId newStatus, Event.toast Toast.dismiss,
          Event.commitStatus transactionId newStatus,
          Event.toast Toast.success], ?_, ?_, ?_, ?_⟩ <;>
          simp [remoteBranch, hc, hsample, hok, hd, remoteCalls]
  · have hc : specificIds.contains transactionId = false := by simpa using hsample
    cases remote with
    | throws st =>
      refine ⟨?_, ?_, [Event.toast Toast.loading, Event.remoteUpdate transactionId newStatus,
        Event.toast Toast.dismiss, Event.toast Toast.error], ?_, ?_, ?_, ?_⟩ <;>
        simp [remoteBranch, hc, hsample, recognizedSuccess, remoteCalls]
    | response data =>
      by_cases hok : recognizedSuccess (UpdateOutcome.response data) = true
      · have hd : successShape data = true := by
          rw [← recognizedSuccess_response]; exact hok
        refine ⟨?_, ?_, [Event.toast Toast.loading,
          Event.remoteUpdate transactionId newStatus,
          Event.commitStatus transactionId newStatus, Event.toast Toast.dismiss,
          Event.toast Toast.success], ?_, ?_, ?_, ?_⟩ <;>
          simp [remoteBranch, hc, hsample, hok, hd, remoteCalls]
      · have hd : successShape data = false := by
          rw [← recognizedSuccess_response]; simpa using hok
        refine ⟨?_, ?_, [Event.toast Toast.loading,
          Event.remoteUpdate transactionId newStatus, Event.toast Toast.dismiss,
          Event.toast Toast.dismiss, Event.toast Toast.error], ?_, ?_, ?_, ?_⟩ <;>
          simp [remoteBranch, hc, hsample, hok, hd, remoteCalls]

theorem remoteBranch_refreshTrigger (transactionId newStatus : String) (remote : UpdateOutcome)
    (w : World) :
    (remoteBranch transactionId newStatus remote w).state.refreshTrigger =
      w.state.refreshTrigger := by
  unfold remoteBranch
  cases remote with
  | throws st => simp only []; split_ifs <;> rfl
  | response data => simp only []; split_ifs <;> rfl

/-- The outer `catch` of `handleUpdateStatus`: when the collection the handler parses
first is unparsable or not an array, nothing is committed, no remote call is made and
an error is reported. -/
theorem handleUpdateStatus_outer_catch (transactionId newStatus : String)
    (remote : UpdateOutcome) (w : World)
    (h : (startsWith transactionId "mock-" = true ∧
          (w.storage.mockTransactions = Stored.unparsable ∨
            w.storage.mockTransactions = Stored.notArray)) ∨
        (startsWith transactionId "mock-" = false ∧
          (w.storage.userTransactions = Stored.unparsable ∨
            w.storage.userTransactions = Stored.notArray))) :
    (handleUpdateStatus transactionId newStatus remote w).state.transactions =
        w.state.transactions ∧
      (handleUpdateStatus transactionId newStatus remote w).log =
        w.log ++ [Event.toast Toast.error] := by
  unfold handleUpdateStatus
  rcases h with ⟨hp, h | h⟩ | ⟨hp, h | h⟩ <;>
    simp [hp, h]

theorem mem_fetched_mock_source {now : String} {remote : FetchOutcome} {w : World}
    {t : Transaction} (ht : t ∈ (fetchTransactions now remote w).state.transactions)
    (hsrc : t.source = some "mockTransactions") :
    t.id ∈ ids w.storage.mockTransactions.records := by
  rw [fetchTransactions_transactions] at ht
  split_ifs at ht
  · rw [(sampleTransactions_all t ht).1] at hsrc
    exact absurd hsrc (by decide)
  · rw [concat_eq_mergedBySource] at ht
    rcases mem_mergedBySource ht with h1 | h1 | h1
    · rw [h1.2] at hsrc; exact absurd hsrc (by decide)
    · rw [h1.2.2] at hsrc; exact absurd hsrc (by decide)
    · exact h1.2.2.1

theorem mem_map_updateStatus {l : List Transaction} {t : Transaction} {i s : String}
    (ht : t ∈ l) (hid : t.id = some i) :
    { t with status := some s } ∈ l.map (updateStatus i s) := by
  have h := List.mem_map_of_mem (updateStatus i s) ht
  simpa [updateStatus, hid] using h

theorem status_of_mem_map_updateStatus {l : List Transaction} {a : Transaction} {i s : String}
    (ha : a ∈ l.map (updateStatus i s)) (hid : a.id = some i) : a.status = some s := by
  obtain ⟨b, _, rfl⟩ := List.mem_map.1 ha
  unfold updateStatus at hid ⊢
  split_ifs at hid ⊢ with h
  · rfl
  · exact absurd hid h

/-! ## Status update routing -/

/-- C5, as stated, fails: the persisted mock record "abc" is shown with source
"mockTransactions", yet updating it leaves the persisted collection and the in-memory
list as they were and calls the remote endpoint, because its id does not start with
"mock-". -/
theorem handleUpdateStatus_mock_source_counterexample :
    (∃ t ∈ plainMockFetched.state.transactions,
        t.id = some "abc" ∧ t.source = some "mockTransactions") ∧
      (handleUpdateStatus "abc" "verified" (UpdateOutcome.throws none)
          plainMockFetched).storage.mockTransactions =
        Stored.array [{ id := some "abc", status := some "pending" }] ∧
      (handleUpdateStatus "abc" "verified" (UpdateOutcome.throws none)
          plainMockFetched).state.transactions = plainMockFetched.state.transactions ∧
      remoteCalls (newEvents plainMockFetched
          (handleUpdateStatus "abc" "verified" (UpdateOutcome.throws none) plainMockFetched)) =
        [Event.remoteUpdate "abc" "verified"] := by
  refine ⟨⟨tagMock { id := some "abc", status := some "pending" }, ?_, rfl, rfl⟩, ?_, ?_, ?_⟩
  · decide
  · decide
  · decide
  · decide

/-- C5, amended: for every record of the merged list whose source is
"mockTransactions" and whose id starts with "mock-" (the test by which
`handleUpdateStatus` recognises a mock record), and every new status, the handler
rewrites the status of that record in the persisted mockTransactions collection,
updates the in-memory copy to the new status, and makes no call to the remote update
endpoint, whatever that endpoint would answer. -/
theorem handleUpdateStatus_mock_id (now : String) (remote : FetchOutcome) (w : World)
    (t : Transaction) (transactionId newStatus : String) (outcome : UpdateOutcome)
    (ht : t ∈ (fetchTransactions now remote w).state.transactions)
    (hsrc : t.source = some "mockTransactions") (hid : t.id = some transactionId)
    (hp : startsWith transactionId "mock-" = true) :
    (∃ a ∈ (fetchTransactions now remote w).storage.mockTransactions.records,
        a.id = some transactionId) ∧
      (handleUpdateStatus transactionId newStatus outcome
          (fetchTransactions now remote w)).storage.mockTransactions =
        Stored.array ((fetchTransactions now remote w).storage.mockTransactions.records.map
          (updateStatus transactionId newStatus)) ∧
      (∀ a ∈ (handleUpdateStatus transactionId newStatus outcome
            (fetchTransactions now remote w)).storage.mockTransactions.records,
          a.id = some transactionId → a.status = some newStatus) ∧
      (handleUpdateStatus transactionId newStatus outcome
          (fetchTransactions now remote w)).state.transactions =
        (fetchTransactions now remote w).state.transactions.map
          (updateStatus transactionId newStatus) ∧
      { t with status := some newStatus } ∈
        (handleUpdateStatus transactionId newStatus outcome
          (fetchTransactions now remote w)).state.transactions ∧
      remoteCalls (newEvents (fetchTransactions now remote w)
        (handleUpdateStatus transactionId newStatus outcome
          (fetchTransactions now remote w))) = [] := by
  have hmem : some transactionId ∈ ids w.storage.mockTransactions.records := by
    rw [← hid]; exact mem_fetched_mock_source ht hsrc
  have hst : (fetchTransactions now remote w).storage = w.storage :=
    fetchTransactions_storage now remote w
  have hparse : (fetchTransactions now remote w).storage.mockTransactions ≠ Stored.unparsable ∧
      (fetchTransactions now remote w).storage.mockTransactions ≠ Stored.notArray := by
    rw [hst]
    constructor <;> intro h <;> rw [h] at hmem <;> simp [Stored.records, ids] at hmem
  obtain ⟨h1, h2, h3, _, _⟩ := handleUpdateStatus_mock_branch transactionId newStatus outcome
    (fetchTransactions now remote w) hp hparse
  refine ⟨?_, h1, ?_, h2, ?_, ?_⟩
  · rw [hst]
    obtain ⟨a, ha, hia⟩ := List.mem_map.1 hmem
    exact ⟨a, ha, hia⟩
  · intro a ha hia
    rw [h1] at ha
    exact status_of_mem_map_updateStatus ha hia
  · rw [h2]
    exact mem_map_updateStatus ht hid
  · rw [newEvents_of_log h3]
    rfl

theorem handleUpdateStatus_mock_id_witness :
    (handleUpdateStatus "mock-1" "verified" (UpdateOutcome.throws none)
        prefixedMockFetched).storage.mockTransactions =
      Stored.array (prefixedMockFetched.storage.mockTransactions.records.map
        (updateStatus "mock-1" "verified")) :=
  (handleUpdateStatus_mock_id "2025-05-06T05:03:14.167Z" (FetchOutcome.ok [])
    prefixedMockWorld
    (tagMock { id := some "mock-1", status := some "pending" })
    "mock-1" "verified" (UpdateOutcome.throws none) (by decide) rfl rfl (by decide)).2.1

/-- C6: for every id that does not start with "mock-" and occurs in the persisted
userTransactions collection, `handleUpdateStatus` rewrites the status of the entries
with that id in the persisted collection and in the in-memory list, then calls the
remote update exactly once, as its last effect; the resulting state, storage and
effects are the same for every outcome of that call. -/
theorem handleUpdateStatus_user_transactions (transactionId newStatus : String)
    (outcome : UpdateOutcome) (w : World)
    (hp : startsWith transactionId "mock-" = false)
    (hmem : some transactionId ∈ ids w.storage.userTransactions.records) :
    (handleUpdateStatus transactionId newStatus outcome w).storage.userTransactions =
        Stored.array
          (w.storage.userTransactions.records.map (updateStatus transactionId newStatus)) ∧
      (∀ a ∈ (handleUpdateStatus transactionId newStatus outcome
            w).storage.userTransactions.records,
          a.id = some transactionId → a.status = some newStatus) ∧
      (handleUpdateStatus transactionId newStatus outcome w).state.transactions =
        w.state.transactions.map (updateStatus transactionId newStatus) ∧
      newEvents w (handleUpdateStatus transactionId newStatus outcome w) =
        [Event.storageSet "userTransactions", Event.commitStatus transactionId newStatus,
          Event.toast Toast.success, Event.remoteUpdate transactionId newStatus] ∧
      remoteCalls (newEvents w (handleUpdateStatus transactionId newStatus outcome w)) =
        [Event.remoteUpdate transactionId newStatus] ∧
      (∀ other : UpdateOutcome,
        handleUpdateStatus transactionId newStatus other w =
          handleUpdateStatus transactionId newStatus outcome w) := by
  obtain ⟨h1, h2, h3, _, _⟩ :=
    handleUpdateStatus_user_branch transactionId newStatus outcome w hp hmem
  refine ⟨h1, ?_, h2, newEvents_of_log h3, ?_, ?_⟩
  · intro a ha hia
    rw [h1] at ha
    exact status_of_mem_map_updateStatus ha hia
  · rw [newEvents_of_log h3]
    rfl
  · intro other
    unfold handleUpdateStatus
    simp only [hp, setIsProcessing_storage]
    cases h : w.storage.userTransactions with
    | unparsable => rfl
    | notArray => rfl
    | absent => rw [h] at hmem; simp [Stored.records, ids] at hmem
    | array l =>
      rw [h] at hmem
      have ha : (l.any fun t => t.id == some transactionId) = true := by
        rw [any_id_some]; exact decide_eq_true hmem
      simp [Stored.records, ha]

theorem handleUpdateStatus_user_transactions_witness :
    (handleUpdateStatus "A" "verified" (UpdateOutcome.throws none)
        exampleWorld).storage.userTransactions =
      Stored.array (exampleWorld.storage.userTransactions.records.map
        (updateStatus "A" "verified")) :=
  (handleUpdateStatus_user_transactions "A" "verified" (UpdateOutcome.throws none)
    exampleWorld (by decide) (by decide)).1

/-- The in-memory list and the calls of the remote/sample branch, seen from the whole
handler. -/
theorem handleUpdateStatus_remote_facts (transactionId newStatus : String)
    (outcome : UpdateOutcome) (w : World)
    (hp : startsWith transactionId "mock-" = false)
    (hs : w.storage.userTransactions ≠ Stored.unparsable ∧
      w.storage.userTransactions ≠ Stored.notArray)
    (hmem : some transactionId ∉ ids w.storage.userTransactions.records) :
    (handleUpdateStatus transactionId newStatus outcome w).state.transactions =
        (if recognizedSuccess outcome || specificIds.contains transactionId
          then w.state.transactions.map (updateStatus transactionId newStatus)
          else w.state.transactions) ∧
      (Event.commitStatus transactionId newStatus ∈
          newEvents w (handleUpdateStatus transactionId newStatus outcome w) ↔
        (recognizedSuccess outcome = true ∨ transactionId ∈ specificIds)) ∧
      remoteCalls (newEvents w (handleUpdateStatus transactionId newStatus outcome w)) =
        [Event.remoteUpdate transactionId newStatus] ∧
      (recognizedSuccess outcome = false → transactionId ∉ specificIds →
        Event.toast Toast.error ∈
          newEvents w (handleUpdateStatus transactionId newStatus outcome w)) := by
  rw [handleUpdateStatus_remote_branch transactionId newStatus outcome w hp hs hmem]
  obtain ⟨_, htx, l, hlog, hcalls, hcommit, herr⟩ :=
    remoteBranch_result transactionId newStatus outcome (w.setIsProcessing true)
  have hlog2 : (((remoteBranch transactionId newStatus outcome
      (w.setIsProcessing true)).afterUpdate transactionId).setIsProcessing false).log =
      w.log ++ l := by
    rw [setIsProcessing_log, afterUpdate_log, hlog, setIsProcessing_log]
  have htx2 : (((remoteBranch transactionId newStatus outcome
      (w.setIsProcessing true)).afterUpdate transactionId).setIsProcessing false).state.transactions
      = (if recognizedSuccess outcome || specificIds.contains transactionId
          then w.state.transactions.map (updateStatus transactionId newStatus)
          else w.state.transactions) := by
    rw [setIsProcessing_state]
    show ((remoteBranch transactionId newStatus outcome
      (w.setIsProcessing true)).afterUpdate transactionId).state.transactions = _
    rw [afterUpdate_transactions, htx]
    rfl
  rw [newEvents_of_log hlog2]
  exact ⟨htx2, hcommit, hcalls, herr⟩

/-- C7: in the remote/sample branch of `handleUpdateStatus` (the id does not start
with "mock-" and is not in the persisted userTransactions collection), the remote
update is called once, and the in-memory list gets the new status for that id if and
only if the call returns a recognized success shape (`data.code` equal to "200" or
`data.status` equal to "success") or the id is one of the three sample ids; so a
sample record is updated in memory whatever the remote call does. -/
theorem handleUpdateStatus_remote_or_sample (transactionId newStatus : String)
    (outcome : UpdateOutcome) (w : World)
    (hp : startsWith transactionId "mock-" = false)
    (hs : w.storage.userTransactions ≠ Stored.unparsable ∧
      w.storage.userTransactions ≠ Stored.notArray)
    (hmem : some transactionId ∉ ids w.storage.userTransactions.records) :
    (handleUpdateStatus transactionId newStatus outcome w).state.transactions =
        (if recognizedSuccess outcome || specificIds.contains transactionId
          then w.state.transactions.map (updateStatus transactionId newStatus)
          else w.state.transactions) ∧
      (Event.commitStatus transactionId newStatus ∈
          newEvents w (handleUpdateStatus transactionId newStatus outcome w) ↔
        (recognizedSuccess outcome = true ∨ transactionId ∈ specificIds)) ∧
      remoteCalls (newEvents w (handleUpdateStatus transactionId newStatus outcome w)) =
        [Event.remoteUpdate transactionId newStatus] ∧
      (transactionId ∈ specificIds →
        (handleUpdateStatus transactionId newStatus outcome w).state.transactions =
          w.state.transactions.map (updateStatus transactionId newStatus)) ∧
      specificIds.length = 3 := by
  obtain ⟨htx, hcommit, hcalls, _⟩ :=
    handleUpdateStatus_remote_facts transactionId newStatus outcome w hp hs hmem
  refine ⟨htx, hcommit, hcalls, ?_, rfl⟩
  intro hsample
  rw [htx]
  have hc : specificIds.contains transactionId = true := by simpa using hsample
  rw [hc, Bool.or_true, if_pos rfl]

theorem handleUpdateStatus_remote_or_sample_witness :
    (handleUpdateStatus "280633ed-7800-4579-88fa-8162a963e2ee" "verified"
        (UpdateOutcome.throws none)
        (fetchTransactions "2025-05-06T05:03:14.167Z" FetchOutcome.throws { })).state.transactions
      = (fetchTransactions "2025-05-06T05:03:14.167Z" FetchOutcome.throws
          { }).state.transactions.map
        (updateStatus "280633ed-7800-4579-88fa-8162a963e2ee" "verified") :=
  (handleUpdateStatus_remote_or_sample "280633ed-7800-4579-88fa-8162a963e2ee" "verified"
    (UpdateOutcome.throws none)
    (fetchTransactions "2025-05-06T05:03:14.167Z" FetchOutcome.throws { })
    (by decide) (by decide) (by decide)).2.2.2.1 (by decide)

/-- C8, as stated, fails: in the spec example the record "A" is shown with source
"api" and is no sample id, but "A" is also in the persisted userTransactions
collection; when the remote update throws, the in-memory status of "A" becomes the
new status and no error is reported. -/
theorem handleUpdateStatus_api_source_counterexample :
    (∃ t ∈ exampleFetched.state.transactions,
        t.id = some "A" ∧ t.source = some "api" ∧ t.status = some "pending") ∧
      "A" ∉ specificIds ∧
      (∃ t ∈ (handleUpdateStatus "A" "verified" (UpdateOutcome.throws none)
          exampleFetched).state.transactions, t.id = some "A" ∧ t.status = some "verified") ∧
      remoteCalls (newEvents exampleFetched
          (handleUpdateStatus "A" "verified" (UpdateOutcome.throws none) exampleFetched)) =
        [Event.remoteUpdate "A" "verified"] ∧
      Event.toast Toast.error ∉ newEvents exampleFetched
        (handleUpdateStatus "A" "verified" (UpdateOutcome.throws none) exampleFetched) := by
  refine ⟨⟨processApiTransaction "2025-05-06T05:03:14.167Z" { id := some "A" }, ?_, rfl, rfl,
    rfl⟩, ?_, ⟨updateStatus "A" "verified"
      (processApiTransaction "2025-05-06T05:03:14.167Z" { id := some "A" }), ?_, rfl, rfl⟩,
    ?_, ?_⟩
  · decide
  · decide
  · decide
  · decide
  · decide

/-- C8, amended: for every record of the merged list whose source is "api", whose id
is outside the sample set, does not start with "mock-" and is not an id of the
persisted userTransactions collection, and every new status, if the remote update
call fails (it throws or returns no recognized success shape) then
`handleUpdateStatus` leaves the in-memory list, and with it the status of that
record, unchanged, commits nothing and reports a failure with an error toast. -/
theorem handleUpdateStatus_api_failure (now : String) (remote : FetchOutcome) (w : World)
    (t : Transaction) (transactionId newStatus : String) (outcome : UpdateOutcome)
    (ht : t ∈ (fetchTransactions now remote w).state.transactions)
    (hsrc : t.source = some "api") (hid : t.id = some transactionId)
    (hsample : transactionId ∉ specificIds)
    (hp : startsWith transactionId "mock-" = false)
    (hmem : some transactionId ∉ ids w.storage.userTransactions.records)
    (hfail : recognizedSuccess outcome = false) :
    (handleUpdateStatus transactionId newStatus outcome
        (fetchTransactions now remote w)).state.transactions =
        (fetchTransactions now remote w).state.transactions ∧
      (∃ a ∈ (handleUpdateStatus transactionId newStatus outcome
          (fetchTransactions now remote w)).state.transactions,
        a.id = some transactionId ∧ a.source = some "api" ∧ a.status = t.status) ∧
      Event.commitStatus transactionId newStatus ∉
        newEvents (fetchTransactions now remote w)
          (handleUpdateStatus transactionId newStatus outcome
            (fetchTransactions now remote w)) ∧
      Event.toast Toast.error ∈
        newEvents (fetchTransactions now remote w)
          (handleUpdateStatus transactionId newStatus outcome
            (fetchTransactions now remote w)) := by
  have hst : (fetchTransactions now remote w).storage = w.storage :=
    fetchTransactions_storage now remote w
  have key : (handleUpdateStatus transactionId newStatus outcome
        (fetchTransactions now remote w)).state.transactions =
        (fetchTransactions now remote w).state.transactions ∧
      Event.commitStatus transactionId newStatus ∉
        newEvents (fetchTransactions now remote w)
          (handleUpdateStatus transactionId newStatus outcome
            (fetchTransactions now remote w)) ∧
      Event.toast Toast.error ∈
        newEvents (fetchTransactions now remote w)
          (handleUpdateStatus transactionId newStatus outcome
            (fetchTransactions now remote w)) := by
    by_cases hs : (fetchTransactions now remote w).storage.userTransactions =
        Stored.unparsable ∨
        (fetchTransactions now remote w).storage.userTransactions = Stored.notArray
    · obtain ⟨h1, h2⟩ := handleUpdateStatus_outer_catch transactionId newStatus outcome
        (fetchTransactions now remote w) (Or.inr ⟨hp, hs⟩)
      rw [newEvents_of_log h2]
      exact ⟨h1, by simp, by simp⟩
    · have hs2 : (fetchTransactions now remote w).storage.userTransactions ≠
          Stored.unparsable ∧
          (fetchTransactions now remote w).storage.userTransactions ≠ Stored.notArray :=
        ⟨fun h => hs (Or.inl h), fun h => hs (Or.inr h)⟩
      have hmem2 : some transactionId ∉
          ids (fetchTransactions now remote w).storage.userTransactions.records := by
        rw [hst]; exact hmem
      obtain ⟨h1, hcommit, _, herr⟩ := handleUpdateStatus_remote_facts transactionId newStatus
        outcome (fetchTransactions now remote w) hp hs2 hmem2
      have hc : specificIds.contains transactionId = false := by simpa using hsample
      rw [hfail, hc] at h1
      refine ⟨h1, ?_, herr hfail hsample⟩
      rw [hcommit, hfail]
      rintro (h | h)
      · exact absurd h (by decide)
      · exact hsample h
  refine ⟨key.1, ⟨t, ?_, hid, hsrc, rfl⟩, key.2.1, key.2.2⟩
  rw [key.1]
  exact ht

theorem handleUpdateStatus_api_failure_witness :
    (handleUpdateStatus "R1" "verified" (UpdateOutcome.throws none)
        (fetchTransactions "2025-05-06T05:03:14.167Z" remoteOnly { })).state.transactions =
      (fetchTransactions "2025-05-06T05:03:14.167Z" remoteOnly { }).state.transactions :=
  (handleUpdateStatus_api_failure "2025-05-06T05:03:14.167Z" remoteOnly { }
    (processApiTransaction "2025-05-06T05:03:14.167Z"
      { id := some "R1", status := some "pending" })
    "R1" "verified" (UpdateOutcome.throws none) (by decide) rfl rfl (by decide) (by decide)
    (by decide) rfl).1

/-- C9: in every branch of `handleUpdateStatus`, whenever the status change is
committed in memory, the open per-row action menu is reset to none and the refresh
trigger is incremented by exactly one; and the processing flag is false when the
handler ends, in every case. -/
theorem handleUpdateStatus_commit_refresh (transactionId newStatus : String)
    (outcome : UpdateOutcome) (w : World) :
    (handleUpdateStatus transactionId newStatus outcome w).state.isProcessing = false ∧
      (Event.commitStatus transactionId newStatus ∈
          newEvents w (handleUpdateStatus transactionId newStatus outcome w) →
        (handleUpdateStatus transactionId newStatus outcome w).state.showActionMenu = none ∧
          (handleUpdateStatus transactionId newStatus outcome w).state.refreshTrigger =
            w.state.refreshTrigger + 1) := by
  refine ⟨rfl, ?_⟩
  by_cases hcatch : (startsWith transactionId "mock-" = true ∧
          (w.storage.mockTransactions = Stored.unparsable ∨
            w.storage.mockTransactions = Stored.notArray)) ∨
        (startsWith transactionId "mock-" = false ∧
          (w.storage.userTransactions = Stored.unparsable ∨
            w.storage.userTransactions = Stored.notArray))
  · obtain ⟨_, h2⟩ := handleUpdateStatus_outer_catch transactionId newStatus outcome w hcatch
    rw [newEvents_of_log h2]
    intro h
    simp at h
  · intro _
    cases hp : startsWith transactionId "mock-" with
    | true =>
      have hs : w.storage.mockTransactions ≠ Stored.unparsable ∧
          w.storage.mockTransactions ≠ Stored.notArray :=
        ⟨fun h => hcatch (Or.inl ⟨hp, Or.inl h⟩), fun h => hcatch (Or.inl ⟨hp, Or.inr h⟩)⟩
      obtain ⟨_, _, _, h4, h5⟩ :=
        handleUpdateStatus_mock_branch transactionId newStatus outcome w hp hs
      exact ⟨h4, h5⟩
    | false =>
      have hs : w.storage.userTransactions ≠ Stored.unparsable ∧
          w.storage.userTransactions ≠ Stored.notArray :=
        ⟨fun h => hcatch (Or.inr ⟨hp, Or.inl h⟩), fun h => hcatch (Or.inr ⟨hp, Or.inr h⟩)⟩
      by_cases hmem : some transactionId ∈ ids w.storage.userTransactions.records
      · obtain ⟨_, _, _, h4, h5⟩ :=
          handleUpdateStatus_user_branch transactionId newStatus outcome w hp hmem
        exact ⟨h4, h5⟩
      · rw [handleUpdateStatus_remote_branch transactionId newStatus outcome w hp hs hmem]
        constructor
        · show ((remoteBranch transactionId newStatus outcome
            (w.setIsProcessing true)).afterUpdate transactionId).state.showActionMenu = none
          exact afterUpdate_showActionMenu _ _
        · show ((remoteBranch transactionId newStatus outcome
            (w.setIsProcessing true)).afterUpdate transactionId).state.refreshTrigger = _
          rw [afterUpdate_refreshTrigger, remoteBranch_refreshTrigger]
          rfl

theorem handleUpdateStatus_commit_refresh_witness :
    (handleUpdateStatus "mock-1" "verified" (UpdateOutcome.throws none)
        prefixedMockFetched).state.showActionMenu = none ∧
      (handleUpdateStatus "mock-1" "verified" (UpdateOutcome.throws none)
        prefixedMockFetched).state.refreshTrigger =
        prefixedMockFetched.state.refreshTrigger + 1 :=
  (handleUpdateStatus_commit_refresh "mock-1" "verified" (UpdateOutcome.throws none)
    prefixedMockFetched).2 (by decide)

/-! ## Wishlist -/

theorem findIndex_nonneg_or {α : Type} (p : α → Bool) (l : List α) :
    findIndex p l = -1 ∨ 0 ≤ findIndex p l := by
  induction l with
  | nil => exact Or.inl rfl
  | cons a l ih =>
    unfold findIndex
    split_ifs with h1 h2
    · exact Or.inr (le_refl 0)
    · exact Or.inl rfl
    · rcases ih with h | h
      · exact absurd h h2
      · exact Or.inr (by omega)

theorem findIndex_eq_neg_one_iff {α : Type} (p : α → Bool) (l : List α) :
    findIndex p l = -1 ↔ ∀ x ∈ l, p x = false := by
  induction l with
  | nil => simp [findIndex]
  | cons a l ih =>
    unfold findIndex
    split_ifs with h1 h2
    · simp [h1]
    · simp only [true_iff, List.mem_cons, forall_eq_or_imp]
      exact ⟨by simpa using h1, ih.1 h2⟩
    · have hnn := findIndex_nonneg_or p l
      constructor
      · intro h
        omega
      · intro h
        exact absurd (ih.2 fun x hx => h x (List.mem_cons_of_mem a hx)) h2

/-- C10: `addToWishlist` returns true exactly when no entry of the wishlist has the
id of the item; in that case the new in-memory collection is the old one with the item
appended at the end and the persisted value is that new collection; otherwise it
returns false and leaves the in-memory collection and the persisted value as they
were. -/
theorem addToWishlist_spec (activity : WishlistItem) (w : WishlistWorld) :
    ((addToWishlist activity w).1 = true ↔ ∀ x ∈ w.wishlist, x.id ≠ activity.id) ∧
      ((∀ x ∈ w.wishlist, x.id ≠ activity.id) →
        (addToWishlist activity w).2.wishlist = w.wishlist ++ [activity] ∧
          (addToWishlist activity w).2.stored = Stored.array (w.wishlist ++ [activity])) ∧
      ((∃ x ∈ w.wishlist, x.id = activity.id) →
        (addToWishlist activity w).1 = false ∧ (addToWishlist activity w).2 = w) := by
  have hiff : findIndex (fun item : WishlistItem => item.id == activity.id) w.wishlist = -1 ↔
      ∀ x ∈ w.wishlist, x.id ≠ activity.id := by
    rw [findIndex_eq_neg_one_iff]
    constructor
    · intro h x hx
      simpa using h x hx
    · intro h x hx
      simpa using h x hx
  unfold addToWishlist
  refine ⟨?_, ?_, ?_⟩
  · by_cases h : findIndex (fun item : WishlistItem => item.id == activity.id) w.wishlist = -1
    · simp only [h, if_true, true_iff]
      exact hiff.1 h
    · simp only [h, if_false, Bool.false_eq_true, false_iff]
      exact fun hall => h (hiff.2 hall)
  · intro hall
    simp only [hiff.2 hall, if_true, and_self]
  · rintro ⟨x, hx, hxa⟩
    have h : ¬ findIndex (fun item : WishlistItem => item.id == activity.id) w.wishlist = -1 :=
      fun h => hiff.1 h x hx hxa
    simp only [h, if_false, and_self]

theorem addToWishlist_spec_witness :
    ((addToWishlist { id := "a3" } exampleWishlist).2.wishlist =
        exampleWishlist.wishlist ++ [{ id := "a3" }] ∧
      (addToWishlist { id := "a3" } exampleWishlist).2.stored =
        Stored.array (exampleWishlist.wishlist ++ [{ id := "a3" }])) ∧
      ((addToWishlist { id := "a2" } exampleWishlist).1 = false ∧
        (addToWishlist { id := "a2" } exampleWishlist).2 = exampleWishlist) :=
  ⟨(addToWishlist_spec { id := "a3" } exampleWishlist).2.1 (by decide),
   (addToWishlist_spec { id := "a2" } exampleWishlist).2.2 (by decide)⟩

theorem findIndex_id_iff (activity : WishlistItem) (l : List WishlistItem) :
    findIndex (fun item : WishlistItem => item.id == activity.id) l = -1 ↔
      ∀ x ∈ l, x.id ≠ activity.id := by
  rw [findIndex_eq_neg_one_iff]
  constructor
  · intro h x hx
    simpa using h x hx
  · intro h x hx
    simpa using h x hx

theorem addToWishlist_of_fresh (activity : WishlistItem) (w : WishlistWorld)
    (h : ∀ x ∈ w.wishlist, x.id ≠ activity.id) :
    addToWishlist activity w =
      (true, { wishlist := w.wishlist ++ [activity]
               stored := Stored.array (w.wishlist ++ [activity]) }) := by
  unfold addToWishlist
  simp only [(findIndex_id_iff activity w.wishlist).2 h, if_true]

theorem addToWishlist_of_present (activity : WishlistItem) (w : WishlistWorld)
    (h : ∃ x ∈ w.wishlist, x.id = activity.id) :
    addToWishlist activity w = (false, w) := by
  unfold addToWishlist
  have hn : ¬ findIndex (fun item : WishlistItem => item.id == activity.id) w.wishlist = -1 := by
    intro hi
    obtain ⟨x, hx, hxa⟩ := h
    exact (findIndex_id_iff activity w.wishlist).1 hi x hx hxa
  simp only [hn, if_false]

theorem addToWishlist_wishlist (activity : WishlistItem) (w : WishlistWorld) :
    (addToWishlist activity w).2.wishlist =
      if ∀ x ∈ w.wishlist, x.id ≠ activity.id then w.wishlist ++ [activity] else w.wishlist := by
  split_ifs with h
  · rw [addToWishlist_of_fresh activity w h]
  · push_neg at h
    rw [addToWishlist_of_present activity w h]

theorem mem_addToWishlist (activity : WishlistItem) (w : WishlistWorld) :
    ∃ x ∈ (addToWishlist activity w).2.wishlist, x.id = activity.id := by
  rw [addToWishlist_wishlist]
  split_ifs with h
  · exact ⟨activity, by simp, rfl⟩
  · push_neg at h
    exact h

/-- C11: adding is idempotent. A second `addToWishlist` of the same item on the state
the first call produced returns false and leaves that state as it is; and when the
starting collection had no entry with the id of the item, the state after the first
call (and so after the second) holds exactly one entry with that id. -/
theorem addToWishlist_idempotent (activity : WishlistItem) (w : WishlistWorld) :
    (addToWishlist activity (addToWishlist activity w).2).1 = false ∧
      (addToWishlist activity (addToWishlist activity w).2).2 = (addToWishlist activity w).2 ∧
      ((∀ x ∈ w.wishlist, x.id ≠ activity.id) →
        ((addToWishlist activity w).2.wishlist.filter fun x => x.id == activity.id).length = 1 ∧
        ((addToWishlist activity (addToWishlist activity w).2).2.wishlist.filter
          fun x => x.id == activity.id).length = 1) := by
  have hsecond := addToWishlist_of_present activity (addToWishlist activity w).2
    (mem_addToWishlist activity w)
  have h2 : (addToWishlist activity (addToWishlist activity w).2).2 =
      (addToWishlist activity w).2 := by rw [hsecond]
  refine ⟨by rw [hsecond], h2, ?_⟩
  intro hall
  rw [h2, addToWishlist_wishlist, if_pos hall, List.filter_append]
  have hnone : (w.wishlist.filter fun x => x.id == activity.id) = [] := by
    rw [List.filter_eq_nil_iff]
    intro x hx
    simpa using hall x hx
  simp [hnone]

theorem addToWishlist_idempotent_witness :
    ((addToWishlist { id := "a3" } exampleWishlist).2.wishlist.filter
        fun x => x.id == "a3").length = 1 ∧
      ((addToWishlist { id := "a3" } (addToWishlist { id := "a3" }
        exampleWishlist).2).2.wishlist.filter fun x => x.id == "a3").length = 1 :=
  (addToWishlist_idempotent { id := "a3" } exampleWishlist).2.2 (by decide)

theorem nodup_addToWishlist (activity : WishlistItem) (w : WishlistWorld)
    (h : (wishlistIds w.wishlist).Nodup) :
    (wishlistIds (addToWishlist activity w).2.wishlist).Nodup := by
  rw [addToWishlist_wishlist]
  split_ifs with hfresh
  · unfold wishlistIds at h ⊢
    rw [List.map_append, List.nodup_append]
    refine ⟨h, by simp, ?_⟩
    intro i hi hi2
    obtain ⟨x, hx, rfl⟩ := List.mem_map.1 hi
    simp only [List.map_cons, List.map_nil, List.mem_singleton] at hi2
    exact hfresh x hx hi2
  · exact h

theorem nodup_removeFromWishlist (activityId : String) (w : WishlistWorld)
    (h : (wishlistIds w.wishlist).Nodup) :
    (wishlistIds (removeFromWishlist activityId w).wishlist).Nodup :=
  h.sublist ((List.filter_sublist w.wishlist).map _)

theorem nodup_apply (op : WishlistOp) (w : WishlistWorld)
    (h : (wishlistIds w.wishlist).Nodup) : (wishlistIds (op.apply w).wishlist).Nodup := by
  cases op with
  | add activity => exact nodup_addToWishlist activity w h
  | remove activityId => exact nodup_removeFromWishlist activityId w h

/-- C12: at most one entry per id. Every wishlist reached from a collection with
pairwise distinct ids, in particular from the empty collection, by any sequence of
`addToWishlist` and `removeFromWishlist` calls has pairwise distinct ids. -/
theorem runOps_nodup (ops : List WishlistOp) (w : WishlistWorld)
    (h : (wishlistIds w.wishlist).Nodup) :
    (wishlistIds (runOps ops w).wishlist).Nodup ∧
      (wishlistIds (runOps ops { }).wishlist).Nodup := by
  have key : ∀ (l : List WishlistOp) (v : WishlistWorld),
      (wishlistIds v.wishlist).Nodup → (wishlistIds (runOps l v).wishlist).Nodup := by
    intro l
    induction l with
    | nil => intro v hv; exact hv
    | cons op l ih =>
      intro v hv
      exact ih (op.apply v) (nodup_apply op v hv)
  exact ⟨key ops w h, key ops { } List.nodup_nil⟩

theorem runOps_nodup_witness :
    (wishlistIds (runOps
      [WishlistOp.add { id := "a2" }, WishlistOp.add { id := "a3" }, WishlistOp.remove "a1",
        WishlistOp.add { id := "a3" }] exampleWishlist).wishlist).Nodup :=
  (runOps_nodup _ exampleWishlist (by decide)).1

/-- C13: `removeFromWishlist` is total and leaves exactly the entries whose id differs
from the given id, in their original order, so every matching entry is gone; removing
an id that no entry has leaves the collection as it was. -/
theorem removeFromWishlist_spec (activityId : String) (w : WishlistWorld) :
    (removeFromWishlist activityId w).wishlist =
        w.wishlist.filter (fun item => decide (item.id ≠ activityId)) ∧
      (∀ x, x ∈ (removeFromWishlist activityId w).wishlist ↔
        x ∈ w.wishlist ∧ x.id ≠ activityId) ∧
      (removeFromWishlist activityId w).wishlist.Sublist w.wishlist ∧
      ((∀ x ∈ w.wishlist, x.id ≠ activityId) →
        (removeFromWishlist activityId w).wishlist = w.wishlist) := by
  have h1 : (removeFromWishlist activityId w).wishlist =
      w.wishlist.filter (fun item => decide (item.id ≠ activityId)) := by
    unfold removeFromWishlist
    simp only []
    apply List.filter_congr
    intro x _
    by_cases hx : x.id = activityId <;> simp [hx]
  refine ⟨h1, ?_, ?_, ?_⟩
  · intro x
    rw [h1]
    simp [List.mem_filter]
  · rw [h1]
    exact List.filter_sublist _
  · intro hall
    rw [h1, List.filter_eq_self]
    intro x hx
    simpa using hall x hx

theorem removeFromWishlist_spec_witness :
    (removeFromWishlist "zz" exampleWishlist).wishlist = exampleWishlist.wishlist :=
  (removeFromWishlist_spec "zz" exampleWishlist).2.2.2 (by decide)

/-- C14: `isInWishlist` is true exactly when some entry of the in-memory wishlist has
the id; it is true for the id of an item right after `addToWishlist` of that item,
whatever the call returned, and false for an id right after `removeFromWishlist` of
that id. As a function from the state to a boolean it changes neither the collection
nor the persisted value. -/
theorem isInWishlist_spec (activityId : String) (activity : WishlistItem)
    (w : WishlistWorld) :
    (isInWishlist activityId w = true ↔ ∃ x ∈ w.wishlist, x.id = activityId) ∧
      isInWishlist activity.id (addToWishlist activity w).2 = true ∧
      isInWishlist activityId (removeFromWishlist activityId w) = false := by
  have hiff : ∀ (i : String) (v : WishlistWorld),
      isInWishlist i v = true ↔ ∃ x ∈ v.wishlist, x.id = i := by
    intro i v
    simp [isInWishlist]
  refine ⟨hiff _ _, (hiff _ _).2 (mem_addToWishlist activity w), ?_⟩
  rw [Bool.eq_false_iff]
  intro h
  obtain ⟨x, hx, hxi⟩ := (hiff _ _).1 h
  simp only [removeFromWishlist, List.mem_filter, bne_iff_ne, ne_eq] at hx
  exact hx.2 hxi

/-- C15: the wishlist is mirrored to storage on every mutation. After a successful
`addToWishlist` and after every `removeFromWishlist` the value under "wishlist" is the
new in-memory collection in serialized form, and the mount effect run on that stored
value gives back the same collection. -/
theorem wishlist_mirrored (activity : WishlistItem) (activityId : String)
    (w : WishlistWorld) :
    ((addToWishlist activity w).1 = true →
        (addToWishlist activity w).2.stored =
            Stored.array (addToWishlist activity w).2.wishlist ∧
          wishlistProviderMount (addToWishlist activity w).2.stored =
            MountOutcome.done
              { wishlist := (addToWishlist activity w).2.wishlist
                stored := (addToWishlist activity w).2.stored }) ∧
      (removeFromWishlist activityId w).stored =
        Stored.array (removeFromWishlist activityId w).wishlist ∧
      wishlistProviderMount (removeFromWishlist activityId w).stored =
        MountOutcome.done
          { wishlist := (removeFromWishlist activityId w).wishlist
            stored := (removeFromWishlist activityId w).stored } := by
  refine ⟨?_, rfl, rfl⟩
  intro hadd
  by_cases hfresh : ∀ x ∈ w.wishlist, x.id ≠ activity.id
  · rw [addToWishlist_of_fresh activity w hfresh]
    exact ⟨rfl, rfl⟩
  · push_neg at hfresh
    rw [addToWishlist_of_present activity w hfresh] at hadd
    exact absurd hadd Bool.false_ne_true

theorem wishlist_mirrored_witness :
    (addToWishlist { id := "a3" } exampleWishlist).2.stored =
      Stored.array (addToWishlist { id := "a3" } exampleWishlist).2.wishlist :=
  ((wishlist_mirrored { id := "a3" } "a1" exampleWishlist).1 (by decide)).1

/-- C16, as stated, fails: with an unparsable text under "wishlist" the mount effect
throws out of `JSON.parse`; it does not end with an empty wishlist. -/
theorem wishlistProviderMount_unparsable_counterexample :
    wishlistProviderMount Stored.unparsable = MountOutcome.throws ∧
      wishlistProviderMount Stored.unparsable ≠
        MountOutcome.done { wishlist := [], stored := Stored.unparsable } := by
  decide

/-- C16, amended: on mount the wishlist is loaded from the persisted value under
"wishlist"; if that value is absent the wishlist starts empty; an unparsable value is
not handled, the effect throws. -/
theorem wishlistProviderMount_spec (l : List WishlistItem) :
    wishlistProviderMount (Stored.array l) =
        MountOutcome.done { wishlist := l, stored := Stored.array l } ∧
      wishlistProviderMount Stored.absent =
        MountOutcome.done { wishlist := [], stored := Stored.absent } ∧
      wishlistProviderMount Stored.unparsable = MountOutcome.throws :=
  ⟨rfl, rfl, rfl⟩

/-! ## Filtering -/

theorem includes_iff (s sub : String) : includes s sub = true ↔ sub.toList <:+: s.toList := by
  simp only [includes, List.any_eq_true, List.mem_tails, List.isPrefixOf_iff_prefix]
  rw [List.infix_iff_prefix_suffix]
  constructor
  · rintro ⟨t, ht, hp⟩
    exact ⟨t, hp, ht⟩
  · rintro ⟨t, hp, ht⟩
    exact ⟨t, ht, hp⟩

theorem filterCallback_empty_query (toLowerCase : String → String) (filterStatus : String)
    (t : Transaction) :
    filterCallback toLowerCase filterStatus "" t =
      (filterStatus == "all" || t.status == some filterStatus) := by
  simp [filterCallback]

/-- C17: with an empty search query the filtered list of the admin page is the whole
list when the selected status is "all", and otherwise exactly the records whose
status equals the selected status, in their original order. -/
theorem filteredTransactions_status (toLowerCase : String → String) (st : State)
    (hq : st.searchQuery = "") :
    (st.filterStatus = "all" → filteredTransactions toLowerCase st = st.transactions) ∧
      (st.filterStatus ≠ "all" →
        filteredTransactions toLowerCase st =
          st.transactions.filter fun t => decide (t.status = some st.filterStatus)) ∧
      (filteredTransactions toLowerCase st).Sublist st.transactions := by
  unfold filteredTransactions
  rw [hq]
  refine ⟨?_, ?_, List.filter_sublist _⟩
  · intro hall
    rw [List.filter_eq_self]
    intro t _
    rw [filterCallback_empty_query, hall]
    rfl
  · intro hne
    apply List.filter_congr
    intro t _
    rw [filterCallback_empty_query]
    have h1 : (st.filterStatus == "all") = false := by simpa using hne
    rw [h1, Bool.false_or]
    by_cases h2 : t.status = some st.filterStatus <;> simp [h2]

theorem filteredTransactions_status_witness :
    (filteredTransactions asciiLower tenRecordsVerified).map (·.id) =
      [some "t2", some "t5", some "t9"] := by
  rw [(filteredTransactions_status asciiLower tenRecordsVerified rfl).2.1 (by decide)]
  decide

/-- C18: with the status filter "all", a record of the list passes the admin search
if and only if the query is empty or the lower-cased query occurs as a substring in
the lower-cased id, user name or user email of the record, a missing field never
matching; so the empty query keeps every record, also one without id, name and
email. -/
theorem filteredTransactions_search (toLowerCase : String → String) (st : State)
    (hf : st.filterStatus = "all") :
    (∀ t ∈ st.transactions,
      (t ∈ filteredTransactions toLowerCase st ↔
        (st.searchQuery = "" ∨
          (∃ s, t.id = some s ∧
            (toLowerCase st.searchQuery).toList <:+: (toLowerCase s).toList) ∨
          (∃ u s, t.user = some u ∧ u.name = some s ∧
            (toLowerCase st.searchQuery).toList <:+: (toLowerCase s).toList) ∨
          (∃ u s, t.user = some u ∧ u.email = some s ∧
            (toLowerCase st.searchQuery).toList <:+: (toLowerCase s).toList)))) ∧
      (st.searchQuery = "" → filteredTransactions toLowerCase st = st.transactions) := by
  constructor
  · intro t ht
    unfold filteredTransactions
    rw [List.mem_filter, hf]
    simp only [ht, true_and, filterCallback, beq_self_eq_true, Bool.true_or, Bool.true_and,
      Bool.or_eq_true, beq_iff_eq, truthy]
    have hid : (Option.map (fun s => includes (toLowerCase s) (toLowerCase st.searchQuery))
        t.id).getD false = true ↔
        ∃ s, t.id = some s ∧
          (toLowerCase st.searchQuery).toList <:+: (toLowerCase s).toList := by
      cases t.id with
      | none => simp
      | some s => simp [includes_iff]
    have huser : ∀ f : UserInfo → Option String,
        (Option.map (fun s => includes (toLowerCase s) (toLowerCase st.searchQuery))
          (t.user.bind f)).getD false = true ↔
        ∃ u s, t.user = some u ∧ f u = some s ∧
          (toLowerCase st.searchQuery).toList <:+: (toLowerCase s).toList := by
      intro f
      cases t.user with
      | none => simp
      | some u =>
        cases hfu : f u with
        | none => simp [hfu]
        | some s => simp [hfu, includes_iff]
    rw [hid, huser (·.name), huser (·.email)]
    simp only [or_assoc]
  · intro hq
    unfold filteredTransactions
    rw [List.filter_eq_self]
    intro t _
    rw [hq, filterCallback_empty_query, hf]
    rfl

theorem filteredTransactions_search_witness :
    filteredTransactions asciiLower (setSearchQuery "" searchRecords) =
      searchRecords.transactions :=
  (filteredTransactions_search asciiLower (setSearchQuery "" searchRecords) rfl).2 rfl

/-! ## Pagination -/

theorem le_ceilDiv_mul (n d : Nat) (hd : 0 < d) : n ≤ ceilDiv n d * d := by
  unfold ceilDiv
  have h1 := Nat.div_add_mod (n + d - 1) d
  have h2 := Nat.mod_lt (n + d - 1) hd
  have h3 : d * ((n + d - 1) / d) = (n + d - 1) / d * d := Nat.mul_comm _ _
  omega

theorem ceilDiv_mul_lt (n d : Nat) (hd : 0 < d) : ceilDiv n d * d < n + d := by
  unfold ceilDiv
  have h1 := Nat.div_add_mod (n + d - 1) d
  have h3 : d * ((n + d - 1) / d) = (n + d - 1) / d * d := Nat.mul_comm _ _
  omega

theorem ceilDiv_eq_ceil (n d : Nat) (hd : 0 < d) :
    ceilDiv n d = Nat.ceil ((n : ℚ) / (d : ℚ)) := by
  have hdq : (0 : ℚ) < d := by exact_mod_cast hd
  apply le_antisymm
  · -- ceilDiv ≤ ceil
    have hle : (n : ℚ) / d ≤ (Nat.ceil ((n : ℚ) / (d : ℚ)) : ℚ) := Nat.le_ceil _
    rw [div_le_iff₀ hdq] at hle
    have hle2 : n ≤ Nat.ceil ((n : ℚ) / (d : ℚ)) * d := by exact_mod_cast hle
    have h := ceilDiv_mul_lt n d hd
    by_contra hcon
    push_neg at hcon
    have h4 : (Nat.ceil ((n : ℚ) / (d : ℚ)) + 1) * d ≤ ceilDiv n d * d :=
      Nat.mul_le_mul_right d hcon
    have h5 : (Nat.ceil ((n : ℚ) / (d : ℚ)) + 1) * d = Nat.ceil ((n : ℚ) / (d : ℚ)) * d + d := by ring
    omega
  · rw [Nat.ceil_le, div_le_iff₀ hdq]
    exact_mod_cast le_ceilDiv_mul n d hd

theorem slice_nat {α : Type} (l : List α) (a b : Nat) :
    slice l (a : Int) ((a : Int) + b) = (l.drop a).take b := by
  unfold slice
  have h1 : ¬ ((a : Int) < 0) := by omega
  have h2 : ¬ ((a : Int) + b < 0) := by omega
  simp only [h1, h2, if_false]
  by_cases hal : a ≤ l.length
  · have hk : (min (a : Int) (l.length : Int)).toNat = a := by omega
    rw [hk]
    have hlen : (l.drop a).length = l.length - a := List.length_drop a l
    by_cases hb : a + b ≤ l.length
    · have : (min ((a : Int) + b) (l.length : Int) - min (a : Int) (l.length : Int)).toNat = b := by omega
      rw [this]
    · have : (min ((a : Int) + b) (l.length : Int) - min (a : Int) (l.length : Int)).toNat
          = l.length - a := by omega
      rw [this, List.take_of_length_le (by omega), List.take_of_length_le (by omega)]
  · have hk : (min (a : Int) (l.length : Int)).toNat = l.length := by omega
    rw [hk, List.drop_of_length_le (le_refl _), List.drop_of_length_le (by omega)]
    simp

theorem flatMap_pages {α : Type} (size : Nat) :
    ∀ (k : Nat) (l : List α), l.length ≤ k * size →
      ((List.range k).flatMap fun i => (l.drop (i * size)).take size) = l := by
  intro k
  induction k with
  | zero =>
    intro l hl
    have : l = [] := List.length_eq_zero.1 (by omega)
    simp [this]
  | succ k ih =>
    intro l hl
    rw [List.range_succ_eq_map, List.flatMap_cons, List.flatMap_map]
    have hrest : ((List.range k).flatMap fun a => (l.drop (Nat.succ a * size)).take size) =
        l.drop size := by
      have hl2 : (l.drop size).length ≤ k * size := by
        rw [List.length_drop]
        have : (k + 1) * size = k * size + size := by ring
        omega
      have h := ih (l.drop size) hl2
      rw [← h]
      congr 1
      funext a
      rw [List.drop_drop]
      congr 2
      rw [Nat.succ_mul, Nat.add_comm]
    rw [hrest]
    simp

theorem page_start_lt (n size p : Nat) (hs : 0 < size) (h1 : 1 ≤ p)
    (hp : p ≤ ceilDiv n size) : (p - 1) * size < n := by
  obtain ⟨q, rfl⟩ : ∃ q, p = q + 1 := ⟨p - 1, by omega⟩
  have h2 : (q + 1) * size ≤ ceilDiv n size * size := Nat.mul_le_mul_right size hp
  have h3 := ceilDiv_mul_lt n size hs
  have h4 : (q + 1) * size = q * size + size := by ring
  simp only [Nat.add_sub_cancel]
  omega

theorem slice_page {α : Type} (l : List α) (size p : Nat) (h1 : 1 ≤ p) :
    slice l (((p : Int) - 1) * size) (((p : Int) - 1) * size + size) =
      (l.drop ((p - 1) * size)).take size := by
  have hc : ((p : Int) - 1) * size = (((p - 1) * size : Nat) : Int) := by
    push_cast [Nat.cast_sub h1]
    ring
  rw [hc, slice_nat]

/-- Pages cut with `slice` at `(p-1)*size .. (p-1)*size + size` and counted with
`ceilDiv` form a pagination. -/
theorem isPagination_of_slice {α : Type} (size : Nat) (hs : 0 < size) (l : List α)
    (page : Nat → List α)
    (hpage : ∀ p, page p =
      slice l (((p : Int) - 1) * size) (((p : Int) - 1) * size + size)) :
    IsPagination size l (ceilDiv l.length size) page := by
  have hform : ∀ p, 1 ≤ p → page p = (l.drop ((p - 1) * size)).take size := by
    intro p h1
    rw [hpage p, slice_page l size p h1]
  refine ⟨ceilDiv_eq_ceil l.length size hs, ?_, ?_⟩
  · intro p h1 hp
    have hlt := page_start_lt l.length size p hs h1 hp
    have hlen : (page p).length = min size (l.length - (p - 1) * size) := by
      rw [hform p h1, List.length_take, List.length_drop]
    refine ⟨hform p h1, ?_, ?_, ?_⟩
    · intro i
      rw [hform p h1, List.getElem?_take, List.getElem?_drop]
    · intro he
      rw [he] at hlen
      simp only [List.length_nil] at hlen
      omega
    · rw [hlen]
      exact Nat.min_le_left _ _
  · have hfun : (fun i => page (i + 1)) = fun i => (l.drop (i * size)).take size := by
      funext i
      rw [hform (i + 1) (by omega)]
      rfl
    rw [hfun]
    exact flatMap_pages size _ l (le_ceilDiv_mul l.length size hs)

theorem fetchTransactions_page_cells (now : String) (remote : FetchOutcome) (w : World) :
    (fetchTransactions now remote w).state.itemsPerPage = w.state.itemsPerPage ∧
      (fetchTransactions now remote w).state.currentPage = w.state.currentPage := by
  unfold fetchTransactions
  simp only [World.setTransactions, World.toast, World.fetchFailed]
  split_ifs <;> exact ⟨rfl, rfl⟩

theorem afterUpdate_currentPage (w : World) (i : String) :
    (w.afterUpdate i).state.currentPage = w.state.currentPage ∧
      (w.afterUpdate i).state.itemsPerPage = w.state.itemsPerPage := by
  unfold World.afterUpdate World.handleCloseViewModal
  split_ifs <;> exact ⟨rfl, rfl⟩

theorem remoteBranch_currentPage (transactionId newStatus : String) (remote : UpdateOutcome)
    (w : World) :
    (remoteBranch transactionId newStatus remote w).state.currentPage = w.state.currentPage ∧
      (remoteBranch transactionId newStatus remote w).state.itemsPerPage =
        w.state.itemsPerPage := by
  unfold remoteBranch
  cases remote with
  | throws st => simp only []; split_ifs <;> exact ⟨rfl, rfl⟩
  | response data => simp only []; split_ifs <;> exact ⟨rfl, rfl⟩

theorem handleUpdateStatus_page_cells (transactionId newStatus : String)
    (remote : UpdateOutcome) (w : World) :
    (handleUpdateStatus transactionId newStatus remote w).state.currentPage =
        w.state.currentPage ∧
      (handleUpdateStatus transactionId newStatus remote w).state.itemsPerPage =
        w.state.itemsPerPage := by
  unfold handleUpdateStatus
  simp only [setIsProcessing_state, setIsProcessing_storage]
  split_ifs with h1
  · split
    · exact ⟨rfl, rfl⟩
    · exact ⟨rfl, rfl⟩
    · exact afterUpdate_currentPage _ _
  · split
    · exact ⟨rfl, rfl⟩
    · exact ⟨rfl, rfl⟩
    · split_ifs
      · exact afterUpdate_currentPage _ _
      · obtain ⟨a, b⟩ := afterUpdate_currentPage
          (remoteBranch transactionId newStatus remote (w.setIsProcessing true)) transactionId
        obtain ⟨c, d⟩ := remoteBranch_currentPage transactionId newStatus remote
          (w.setIsProcessing true)
        exact ⟨a.trans c, b.trans d⟩

/-- C19: pagination uses a fixed page size (10 in the admin transactions page, 7 in
the users page, 6 in the transaction history) and 1-indexed pages. In each of the
three, the page count is `ceil(n / pageSize)`, page `p` of `1..pageCount` shows the
items at the positions `(p-1)*pageSize .. p*pageSize-1`, is not empty and has at most
`pageSize` items, and the pages `1..pageCount` concatenated give back the whole list.
The admin page size starts at 10 and neither `fetchTransactions` nor
`handleUpdateStatus` changes it. -/
theorem pagination_spec {α : Type} (toLowerCase : String → String) (st : State)
    (users history : List α) (now : String) (remote : FetchOutcome) (w : World)
    (transactionId newStatus : String) (outcome : UpdateOutcome)
    (hsize : st.itemsPerPage = 10) :
    IsPagination 10 (filteredTransactions toLowerCase st) (totalPages toLowerCase st)
        (fun p => currentTransactions toLowerCase { st with currentPage := p }) ∧
      IsPagination 7 users (Users.totalPages users) (Users.currentUsers users) ∧
      IsPagination 6 history (TransactionHistory.totalPages history)
        (TransactionHistory.currentTransactions history) ∧
      ({ } : State).itemsPerPage = 10 ∧
      (fetchTransactions now remote w).state.itemsPerPage = w.state.itemsPerPage ∧
      (handleUpdateStatus transactionId newStatus outcome w).state.itemsPerPage =
        w.state.itemsPerPage := by
  refine ⟨?_, ?_, ?_, rfl, (fetchTransactions_page_cells now remote w).1,
    (handleUpdateStatus_page_cells transactionId newStatus outcome w).2⟩
  · have h := isPagination_of_slice 10 (by decide) (filteredTransactions toLowerCase st)
      (fun p => currentTransactions toLowerCase { st with currentPage := p })
      (by
        intro p
        simp only [currentTransactions, startIndex, endIndex, hsize]
        rfl)
    have ht : totalPages toLowerCase st =
        ceilDiv (filteredTransactions toLowerCase st).length 10 := by
      unfold totalPages
      rw [hsize]
    rw [ht]
    exact h
  · exact isPagination_of_slice 7 (by decide) users (Users.currentUsers users)
      (fun p => rfl)
  · exact isPagination_of_slice 6 (by decide) history
      (TransactionHistory.currentTransactions history) (fun p => rfl)

theorem pagination_spec_witness :
    IsPagination 10 (filteredTransactions asciiLower elevenOnPageTwo)
      (totalPages asciiLower elevenOnPageTwo)
      (fun p => currentTransactions asciiLower { elevenOnPageTwo with currentPage := p }) :=
  (pagination_spec asciiLower elevenOnPageTwo ([] : List Nat) [] "2025-05-06T05:03:14.167Z"
    FetchOutcome.throws { } "t1" "verified" (UpdateOutcome.throws none) rfl).1

/-- C20: an out-of-range current page is not clamped. Changing the status filter or
the search query, storing a new merged list in `fetchTransactions` and committing a
status in `handleUpdateStatus` leave `currentPage` as it is; so
there is a state, reached from a valid page 2 of 2 by selecting the status
"verified", in which `currentPage` exceeds the page count and the displayed page is
empty although the filtered list is not. -/
theorem currentPage_not_clamped (toLowerCase : String → String) (value : String)
    (st : State) (now : String) (remote : FetchOutcome) (w : World)
    (transactionId newStatus : String) (outcome : UpdateOutcome) :
    (setFilterStatus value st).currentPage = st.currentPage ∧
      (setSearchQuery value st).currentPage = st.currentPage ∧
      (fetchTransactions now remote w).state.currentPage = w.state.currentPage ∧
      (handleUpdateStatus transactionId newStatus outcome w).state.currentPage =
        w.state.currentPage ∧
      (elevenOnPageTwo.currentPage = 2 ∧ totalPages asciiLower elevenOnPageTwo = 2 ∧
        currentTransactions asciiLower elevenOnPageTwo ≠ []) ∧
      totalPages asciiLower (setFilterStatus "verified" elevenOnPageTwo) <
        (setFilterStatus "verified" elevenOnPageTwo).currentPage ∧
      currentTransactions asciiLower (setFilterStatus "verified" elevenOnPageTwo) = [] ∧
      filteredTransactions asciiLower (setFilterStatus "verified" elevenOnPageTwo) ≠ [] ∧
      (∃ s : State, totalPages toLowerCase s < s.currentPage ∧
        currentTransactions toLowerCase s = [] ∧ filteredTransactions toLowerCase s ≠ []) := by
  refine ⟨rfl, rfl, (fetchTransactions_page_cells now remote w).2,
    (handleUpdateStatus_page_cells transactionId newStatus outcome w).1, ⟨rfl, ?_, ?_⟩, ?_, ?_, ?_,
    ⟨{ transactions := [{ }], currentPage := 2 }, ?_, ?_, ?_⟩⟩
  · decide
  · decide
  · decide
  · decide
  · decide
  · simp [totalPages, filteredTransactions, filterCallback, ceilDiv]
  · simp [currentTransactions, filteredTransactions, filterCallback, slice, startIndex,
      endIndex]
  · simp [filteredTransactions, filterCallback]

/-! ## Normalisation of the sources -/

theorem strOr_of_nonempty (s : String) (b : Option String) (h : s ≠ "") :
    strOr (some s) b = some s := by
  simp [strOr, truthyStr, h]

theorem strOr_of_empty (a b : Option String) (h : a = none ∨ a = some "") :
    strOr a b = b := by
  rcases h with rfl | rfl <;> simp [strOr, truthyStr]

theorem processApiTransaction_userName (now : String) (t : Transaction) :
    ((processApiTransaction now t).user.bind (·.name)) =
      strOr (strOr t.userName (t.user.bind (·.name))) (some "Unknown User") := rfl

/-- C21, as stated, fails: a remote record whose status is present but empty is
normalised to the status "pending", not to its own status; likewise an empty
`proofPaymentUrl` and an empty `userName` are passed over for the next field. -/
theorem processApiTransaction_present_counterexample :
    emptyFieldsRecord.status = some "" ∧
      (processApiTransaction "2025-05-06T05:03:14.167Z" emptyFieldsRecord).status =
        some "pending" ∧
      emptyFieldsRecord.proofPaymentUrl = some "" ∧
      (processApiTransaction "2025-05-06T05:03:14.167Z" emptyFieldsRecord).paymentProofUrl =
        some "proof.png" ∧
      emptyFieldsRecord.userName = some "" ∧
      ((processApiTransaction "2025-05-06T05:03:14.167Z" emptyFieldsRecord).user.bind
        (·.name)) = some "Bob" := by
  decide

/-- C21, amended: normalising a remote record keeps its id and yields status = the
status of the record if present and not empty, else "pending"; amount = the amount of
the record if present, else 0; paymentProofUrl = the first value present and not
empty among `proofPaymentUrl` then `paymentProofUrl`, else null; user name = the first
value present and not empty among `userName` then `user.name`, else "Unknown User";
and source = "api". -/
theorem processApiTransaction_spec (now : String) (t : Transaction) :
    (processApiTransaction now t).id = t.id ∧
      (processApiTransaction now t).source = some "api" ∧
      (∀ s, t.status = some s → s ≠ "" → (processApiTransaction now t).status = some s) ∧
      ((t.status = none ∨ t.status = some "") →
        (processApiTransaction now t).status = some "pending") ∧
      (∀ n, t.amount = some n → (processApiTransaction now t).amount = some n) ∧
      (t.amount = none → (processApiTransaction now t).amount = some 0) ∧
      (∀ s, t.proofPaymentUrl = some s → s ≠ "" →
        (processApiTransaction now t).paymentProofUrl = some s) ∧
      ((t.proofPaymentUrl = none ∨ t.proofPaymentUrl = some "") →
        (∀ s, t.paymentProofUrl = some s → s ≠ "" →
          (processApiTransaction now t).paymentProofUrl = some s) ∧
        ((t.paymentProofUrl = none ∨ t.paymentProofUrl = some "") →
          (processApiTransaction now t).paymentProofUrl = none)) ∧
      (∀ s, t.userName = some s → s ≠ "" →
        ((processApiTransaction now t).user.bind (·.name)) = some s) ∧
      ((t.userName = none ∨ t.userName = some "") →
        (∀ s, (t.user.bind (·.name)) = some s → s ≠ "" →
          ((processApiTransaction now t).user.bind (·.name)) = some s) ∧
        (((t.user.bind (·.name)) = none ∨ (t.user.bind (·.name)) = some "") →
          ((processApiTransaction now t).user.bind (·.name)) = some "Unknown User")) := by
  refine ⟨rfl, rfl, ?_, ?_, ?_, ?_, ?_, ?_, ?_, ?_⟩
  · intro s hs hne
    simp only [processApiTransaction, hs, strOr_of_nonempty s _ hne]
  · intro h
    simp only [processApiTransaction, strOr_of_empty _ _ h]
  · intro n hn
    simp only [processApiTransaction, hn, numOr]
    split_ifs with h0
    · rw [h0]
    · rfl
  · intro hn
    simp only [processApiTransaction, hn, numOr]
  · intro s hs hne
    simp only [processApiTransaction, hs, strOr_of_nonempty s _ hne]
  · intro h
    refine ⟨?_, ?_⟩
    · intro s hs hne
      simp only [processApiTransaction, strOr_of_empty _ _ h, hs, strOr_of_nonempty s _ hne]
    · intro h2
      simp only [processApiTransaction, strOr_of_empty _ _ h, strOr_of_empty _ _ h2]
  · intro s hs hne
    rw [processApiTransaction_userName, hs, strOr_of_nonempty s _ hne,
      strOr_of_nonempty s _ hne]
  · intro h
    refine ⟨?_, ?_⟩
    · intro s hs hne
      rw [processApiTransaction_userName, strOr_of_empty _ _ h, hs, strOr_of_nonempty s _ hne]
    · intro h2
      rw [processApiTransaction_userName, strOr_of_empty _ _ h, strOr_of_empty _ _ h2]

theorem processApiTransaction_spec_witness :
    (processApiTransaction "2025-05-06T05:03:14.167Z" emptyFieldsRecord).status =
        some "pending" ∧
      (processApiTransaction "2025-05-06T05:03:14.167Z" emptyFieldsRecord).amount = some 0 :=
  ⟨(processApiTransaction_spec "2025-05-06T05:03:14.167Z" emptyFieldsRecord).2.2.2.1
      (Or.inr rfl),
   (processApiTransaction_spec "2025-05-06T05:03:14.167Z" emptyFieldsRecord).2.2.2.2.2.1 rfl⟩

/-- The stored list is the sample list when the three sources are empty and the merged
list otherwise. -/
theorem fetchTransactions_cases (now : String) (remote : FetchOutcome) (w : World) :
    ((remote.records = [] ∧ w.storage.userTransactions.records = [] ∧
        w.storage.mockTransactions.records = []) ∧
        (fetchTransactions now remote w).state.transactions = sampleTransactions) ∨
      (¬ (remote.records = [] ∧ w.storage.userTransactions.records = [] ∧
        w.storage.mockTransactions.records = []) ∧
        (fetchTransactions now remote w).state.transactions =
          mergedBySource now w.storage remote.records w.storage.userTransactions.records
            w.storage.mockTransactions.records) := by
  rw [fetchTransactions_transactions, concat_eq_mergedBySource]
  by_cases h : (remote.records = [] ∧ w.storage.userTransactions.records = [] ∧
      w.storage.mockTransactions.records = [])
  · left
    exact ⟨h, if_pos ((mergedBySource_length_eq_zero _ _ _ _ _).2 h)⟩
  · right
    refine ⟨h, if_neg ?_⟩
    rw [mergedBySource_length_eq_zero]
    exact h

theorem mem_mergedBySource_mock {now : String} {ls : LocalStorage}
    {r u m : List Transaction} {t : Transaction}
    (h : t ∈ mergedBySource now ls r u m) (hsrc : t.source = some "mockTransactions") :
    ∃ a ∈ m, a.id ∉ ids r ∧ a.id ∉ ids u ∧ t = tagMock a := by
  simp only [mergedBySource, List.mem_append, List.mem_map, List.mem_filter,
    decide_eq_true_eq] at h
  rcases h with (⟨a, _, rfl⟩ | ⟨a, _, rfl⟩) | ⟨a, ⟨ha, hr, hu⟩, rfl⟩
  · have h2 : some "api" = some "mockTransactions" := hsrc
    exact absurd h2 (by decide)
  · have h2 : some "userTransactions" = some "mockTransactions" := hsrc
    exact absurd h2 (by decide)
  · exact ⟨a, ha, hr, hu, rfl⟩

theorem tagMock_mem_mergedBySource (now : String) (ls : LocalStorage)
    (r u m : List Transaction) (a : Transaction) (ha : a ∈ m) (hr : a.id ∉ ids r)
    (hu : a.id ∉ ids u) : tagMock a ∈ mergedBySource now ls r u m := by
  simp only [mergedBySource, List.mem_append, List.mem_map, List.mem_filter,
    decide_eq_true_eq]
  exact Or.inr ⟨a, ⟨ha, hr, hu⟩, rfl⟩

/-- C22, as stated, fails: a persisted mock record without status and amount appears in
the merged list without status and amount, not with "pending" and 0. -/
theorem mock_not_normalized_counterexample :
    (fetchTransactions "2025-05-06T05:03:14.167Z" (FetchOutcome.ok [])
        bareMockWorld).state.transactions = [tagMock { id := some "m1" }] ∧
      (tagMock { id := some "m1" }).status = none ∧
      (tagMock { id := some "m1" }).amount = none ∧
      (∀ t ∈ (fetchTransactions "2025-05-06T05:03:14.167Z" (FetchOutcome.ok [])
          bareMockWorld).state.transactions,
        t.status ≠ some "pending" ∧ t.amount ≠ some 0) := by
  decide

/-- C22, amended: every local mock transaction that survives de-duplication is taken
into the merged list with all its fields as persisted and gets only the flag
`isMockTransaction` and the source "mockTransactions"; so a persisted mock record with
a missing status appears with a missing status, and one with a missing amount with a
missing amount. -/
theorem mock_kept_as_persisted (now : String) (remote : FetchOutcome) (w : World) :
    (∀ t ∈ (fetchTransactions now remote w).state.transactions,
        t.source = some "mockTransactions" →
        ∃ a ∈ w.storage.mockTransactions.records,
          a.id ∉ ids remote.records ∧ a.id ∉ ids w.storage.userTransactions.records ∧
          t = { a with isMockTransaction := true, source := some "mockTransactions" } ∧
          t.status = a.status ∧ t.amount = a.amount) ∧
      (∀ a ∈ w.storage.mockTransactions.records,
        a.id ∉ ids remote.records → a.id ∉ ids w.storage.userTransactions.records →
        { a with isMockTransaction := true, source := some "mockTransactions" } ∈
          (fetchTransactions now remote w).state.transactions) := by
  constructor
  · intro t ht hsrc
    rcases fetchTransactions_cases now remote w with ⟨_, h⟩ | ⟨_, h⟩
    · rw [h] at ht
      rw [(sampleTransactions_all t ht).1] at hsrc
      exact absurd hsrc (by decide)
    · rw [h] at ht
      obtain ⟨a, ha, hr, hu, rfl⟩ := mem_mergedBySource_mock ht hsrc
      exact ⟨a, ha, hr, hu, rfl, rfl, rfl⟩
  · intro a ha hr hu
    rcases fetchTransactions_cases now remote w with ⟨hempty, _⟩ | ⟨_, h⟩
    · rw [hempty.2.2] at ha
      exact absurd ha (List.not_mem_nil a)
    · rw [h]
      exact tagMock_mem_mergedBySource now w.storage _ _ _ a ha hr hu

theorem mock_kept_as_persisted_witness :
    ({ ({ id := some "m1" } : Transaction) with
        isMockTransaction := true, source := some "mockTransactions" } : Transaction) ∈
      (fetchTransactions "2025-05-06T05:03:14.167Z" (FetchOutcome.ok [])
        bareMockWorld).state.transactions :=
  (mock_kept_as_persisted "2025-05-06T05:03:14.167Z" (FetchOutcome.ok []) bareMockWorld).2
    { id := some "m1" } (by decide) (by decide) (by decide)

/-- C26: de-duplication in `fetchTransactions` is across sources only. A remote
response that holds two records with the id "A" gives a merged list with two records
with the id "A". -/
theorem duplicate_within_source_kept :
    ids duplicateRemote.records = [some "A", some "A"] ∧
      ids (fetchTransactions "2025-05-06T05:03:14.167Z" duplicateRemote
        { }).state.transactions = [some "A", some "A"] ∧
      sources (fetchTransactions "2025-05-06T05:03:14.167Z" duplicateRemote
        { }).state.transactions = [some "api", some "api"] ∧
      ¬ (ids (fetchTransactions "2025-05-06T05:03:14.167Z" duplicateRemote
        { }).state.transactions).Nodup := by
  decide

/-! ## Frame of a committed update and the sample fallback -/

theorem updateStatus_id (i s : String) (t : Transaction) : (updateStatus i s t).id = t.id := by
  unfold updateStatus
  split_ifs <;> rfl

theorem updateStatus_idem (i s : String) (t : Transaction) :
    updateStatus i s (updateStatus i s t) = updateStatus i s t := by
  unfold updateStatus
  split_ifs <;> rfl

/-- C27: a committed status update changes nothing but the status. For every list (the
in-memory list, or a persisted collection the handler rewrites), id and new status, the
rewritten list has the same length and the same ids in the same order, a record at a
position is the update of the record at that position, a record with another id is
unchanged, a record with the id keeps all fields but the status, which becomes the new
status; so pairwise distinct ids stay pairwise distinct and the same update applied
twice equals the update applied once. The in-memory commit of `handleUpdateStatus` is
this rewrite. -/
theorem updateStatus_frame (transactionId newStatus : String) (l : List Transaction)
    (w : World) :
    (l.map (updateStatus transactionId newStatus)).length = l.length ∧
      ids (l.map (updateStatus transactionId newStatus)) = ids l ∧
      (∀ i : Nat, (l.map (updateStatus transactionId newStatus))[i]? =
        (l[i]?).map (updateStatus transactionId newStatus)) ∧
      (∀ t, t.id ≠ some transactionId → updateStatus transactionId newStatus t = t) ∧
      (∀ t, t.id = some transactionId →
        updateStatus transactionId newStatus t = { t with status := some newStatus }) ∧
      ((ids l).Nodup → (ids (l.map (updateStatus transactionId newStatus))).Nodup) ∧
      (l.map (updateStatus transactionId newStatus)).map
          (updateStatus transactionId newStatus) =
        l.map (updateStatus transactionId newStatus) ∧
      (w.commitStatus transactionId newStatus).state.transactions =
        w.state.transactions.map (updateStatus transactionId newStatus) := by
  have hids : ids (l.map (updateStatus transactionId newStatus)) = ids l :=
    ids_map_of_id_eq _ (updateStatus_id transactionId newStatus) l
  refine ⟨List.length_map _ _, hids, ?_, ?_, ?_, ?_, ?_, rfl⟩
  · intro i
    exact List.getElem?_map _ _ _
  · intro t ht
    unfold updateStatus
    rw [if_neg ht]
  · intro t ht
    unfold updateStatus
    rw [if_pos ht]
  · intro h
    rw [hids]
    exact h
  · rw [List.map_map]
    apply List.map_congr_left
    intro t _
    exact updateStatus_idem transactionId newStatus t

theorem updateStatus_frame_witness :
    (ids (exampleFetched.state.transactions.map (updateStatus "B" "verified"))).Nodup :=
  (updateStatus_frame "B" "verified" exampleFetched.state.transactions { }).2.2.2.2.2.1
    (by decide)

theorem fetchTransactions_of_empty (now : String) (remote : FetchOutcome) (w : World)
    (hr : remote.records = []) (hu : w.storage.userTransactions.records = [])
    (hm : w.storage.mockTransactions.records = []) :
    (fetchTransactions now remote w).state.transactions = sampleTransactions := by
  rcases fetchTransactions_cases now remote w with ⟨_, h⟩ | ⟨hne, _⟩
  · exact h
  · exact absurd ⟨hr, hu, hm⟩ hne

theorem specificIds_not_mock (transactionId : String) (h : transactionId ∈ specificIds) :
    startsWith transactionId "mock-" = false := by
  simp only [specificIds, List.mem_cons, List.mem_singleton, List.not_mem_nil, or_false] at h
  rcases h with rfl | rfl | rfl <;> decide

/-- The remote/sample branch and the outer `catch` leave `localStorage` as it is. -/
theorem handleUpdateStatus_storage_unchanged (transactionId newStatus : String)
    (outcome : UpdateOutcome) (w : World)
    (hp : startsWith transactionId "mock-" = false)
    (hmem : some transactionId ∉ ids w.storage.userTransactions.records) :
    (handleUpdateStatus transactionId newStatus outcome w).storage = w.storage := by
  by_cases hs : w.storage.userTransactions = Stored.unparsable ∨
      w.storage.userTransactions = Stored.notArray
  · unfold handleUpdateStatus
    rcases hs with h | h <;> simp [hp, h]
  · have hs2 : w.storage.userTransactions ≠ Stored.unparsable ∧
        w.storage.userTransactions ≠ Stored.notArray :=
      ⟨fun h => hs (Or.inl h), fun h => hs (Or.inr h)⟩
    rw [handleUpdateStatus_remote_branch transactionId newStatus outcome w hp hs2 hmem,
      setIsProcessing_storage, afterUpdate_storage,
      (remoteBranch_result transactionId newStatus outcome (w.setIsProcessing true)).1,
      setIsProcessing_storage]

/-- C28: the sample fallback does not depend on the previous in-memory list. Every
`fetchTransactions` run in which the three sources are empty stores the same three
sample records, all with status "waiting_verification", whatever the state was. So
after a status change on a sample record, committed in memory only and followed by an
increment of the refresh trigger, the re-fetch with the sources still empty shows the
three sample records again, that record with status "waiting_verification". -/
theorem sample_fallback_refetch (now now2 : String) (remote remote2 : FetchOutcome) (w : World)
    (transactionId newStatus : String) (outcome : UpdateOutcome)
    (hr : remote.records = []) (hr2 : remote2.records = [])
    (hu : w.storage.userTransactions.records = [])
    (hm : w.storage.mockTransactions.records = [])
    (hid : transactionId ∈ specificIds) :
    (∀ st : State,
        (fetchTransactions now remote { w with state := st }).state.transactions =
          sampleTransactions) ∧
      sampleTransactions.length = 3 ∧
      (∀ t ∈ sampleTransactions, t.status = some "waiting_verification") ∧
      ((w.storage.userTransactions ≠ Stored.unparsable ∧
          w.storage.userTransactions ≠ Stored.notArray) →
        (handleUpdateStatus transactionId newStatus outcome
            (fetchTransactions now remote w)).state.transactions =
          sampleTransactions.map (updateStatus transactionId newStatus) ∧
        Event.commitStatus transactionId newStatus ∈
          newEvents (fetchTransactions now remote w)
            (handleUpdateStatus transactionId newStatus outcome
              (fetchTransactions now remote w)) ∧
        (handleUpdateStatus transactionId newStatus outcome
            (fetchTransactions now remote w)).state.refreshTrigger =
          (fetchTransactions now remote w).state.refreshTrigger + 1) ∧
      (handleUpdateStatus transactionId newStatus outcome
          (fetchTransactions now remote w)).storage = w.storage ∧
      (fetchTransactions now2 remote2
          (handleUpdateStatus transactionId newStatus outcome
            (fetchTransactions now remote w))).state.transactions = sampleTransactions ∧
      (∀ t ∈ (fetchTransactions now2 remote2
          (handleUpdateStatus transactionId newStatus outcome
            (fetchTransactions now remote w))).state.transactions,
        t.id = some transactionId → t.status = some "waiting_verification") := by
  have hst : (fetchTransactions now remote w).storage = w.storage :=
    fetchTransactions_storage now remote w
  have hp := specificIds_not_mock transactionId hid
  have hmem : some transactionId ∉
      ids (fetchTransactions now remote w).storage.userTransactions.records := by
    rw [hst, hu]
    exact List.not_mem_nil _
  have hstore : (handleUpdateStatus transactionId newStatus outcome
      (fetchTransactions now remote w)).storage = w.storage := by
    rw [handleUpdateStatus_storage_unchanged transactionId newStatus outcome _ hp hmem, hst]
  have hrefetch : (fetchTransactions now2 remote2
      (handleUpdateStatus transactionId newStatus outcome
        (fetchTransactions now remote w))).state.transactions = sampleTransactions := by
    apply fetchTransactions_of_empty now2 remote2 _ hr2
    · rw [hstore]; exact hu
    · rw [hstore]; exact hm
  refine ⟨?_, rfl, fun t ht => (sampleTransactions_all t ht).2, ?_, hstore, hrefetch, ?_⟩
  · intro st
    exact fetchTransactions_of_empty now remote { w with state := st } hr hu hm
  · intro hs
    have hs2 : (fetchTransactions now remote w).storage.userTransactions ≠ Stored.unparsable ∧
        (fetchTransactions now remote w).storage.userTransactions ≠ Stored.notArray := by
      rw [hst]; exact hs
    obtain ⟨htx, hcommit, _, _⟩ := handleUpdateStatus_remote_facts transactionId newStatus
      outcome (fetchTransactions now remote w) hp hs2 hmem
    have hc : specificIds.contains transactionId = true := by simpa using hid
    rw [hc, Bool.or_true, if_pos rfl, fetchTransactions_of_empty now remote w hr hu hm] at htx
    refine ⟨htx, hcommit.2 (Or.inr hid), ?_⟩
    rw [handleUpdateStatus_remote_branch transactionId newStatus outcome _ hp hs2 hmem]
    show ((remoteBranch transactionId newStatus outcome
      ((fetchTransactions now remote w).setIsProcessing true)).afterUpdate
        transactionId).state.refreshTrigger = _
    rw [afterUpdate_refreshTrigger, remoteBranch_refreshTrigger]
    rfl
  · intro t ht _
    rw [hrefetch] at ht
    exact (sampleTransactions_all t ht).2

theorem sample_fallback_refetch_witness :
    (fetchTransactions "2025-05-06T06:00:00.000Z" FetchOutcome.throws
        (handleUpdateStatus "280633ed-7800-4579-88fa-8162a963e2ee" "verified"
          (UpdateOutcome.throws none)
          (fetchTransactions "2025-05-06T05:03:14.167Z" FetchOutcome.throws
            { }))).state.transactions = sampleTransactions :=
  (sample_fallback_refetch "2025-05-06T05:03:14.167Z" "2025-05-06T06:00:00.000Z"
    FetchOutcome.throws FetchOutcome.throws { } "280633ed-7800-4579-88fa-8162a963e2ee"
    "verified" (UpdateOutcome.throws none) rfl rfl rfl rfl (by decide)).2.2.2.2.2.1

/-! ## Proof highlight and pager buttons -/

theorem hoursDiff_lt_iff (d : Int) : ((d : ℚ) / (1000 * 60 * 60) < 24) ↔ d < 86400000 := by
  rw [div_lt_iff₀ (by norm_num)]
  constructor
  · intro h
    have h2 : (d : ℚ) < ((86400000 : Int) : ℚ) := by
      have : (24 : ℚ) * (1000 * 60 * 60) = ((86400000 : Int) : ℚ) := by norm_num
      rw [← this]; exact h
    exact_mod_cast h2
  · intro h
    have h2 : (d : ℚ) < ((86400000 : Int) : ℚ) := by exact_mod_cast h
    have : (24 : ℚ) * (1000 * 60 * 60) = ((86400000 : Int) : ℚ) := by norm_num
    rw [this]; exact h2

/-- C23: for every transaction with a payment proof whose `updatedAt` is a valid date,
and every current time, `isNewPaymentProof` is true if and only if now minus
`updatedAt` is less than 24 hours, that is less than 86400000 milliseconds; a
transaction without a payment proof is never new, and neither is one whose
`updatedAt` is no valid date. -/
theorem isNewPaymentProof_spec (parse : String → Option Int) (now : Int) (t : Transaction) :
    (truthyStr t.paymentProofUrl = true →
        ∀ u, dateValue parse t.updatedAt = some u →
          (TransactionHistory.isNewPaymentProof parse now t = true ↔ now - u < 86400000)) ∧
      (truthyStr t.paymentProofUrl = false →
        TransactionHistory.isNewPaymentProof parse now t = false) ∧
      (dateValue parse t.updatedAt = none →
        TransactionHistory.isNewPaymentProof parse now t = false) := by
  refine ⟨?_, ?_, ?_⟩
  · intro hp u hu
    simp only [TransactionHistory.isNewPaymentProof, hp, hu, Bool.not_true, Bool.false_eq_true,
      if_false, decide_eq_true_eq]
    exact hoursDiff_lt_iff (now - u)
  · intro hp
    simp [TransactionHistory.isNewPaymentProof, hp]
  · intro hu
    simp only [TransactionHistory.isNewPaymentProof, hu]
    split_ifs <;> rfl

theorem isNewPaymentProof_spec_witness :
    TransactionHistory.isNewPaymentProof (fun _ => some 1000) 86400999
        { paymentProofUrl := some "proof.png", updatedAt := some "2025-05-06" } = true ∧
      TransactionHistory.isNewPaymentProof (fun _ => some 1000) 86401000
        { paymentProofUrl := some "proof.png", updatedAt := some "2025-05-06" } ≠ true :=
  ⟨((isNewPaymentProof_spec (fun _ => some 1000) 86400999
      { paymentProofUrl := some "proof.png", updatedAt := some "2025-05-06" }).1
      (by decide) 1000 rfl).2 (by decide),
   fun h => absurd (((isNewPaymentProof_spec (fun _ => some 1000) 86401000
      { paymentProofUrl := some "proof.png", updatedAt := some "2025-05-06" }).1
      (by decide) 1000 rfl).1 h) (by decide)⟩

/-- C29: in the pagination controls of the admin Transactions page and of the Users
page, for a page count of at least 1 and a current page between 1 and the page count,
each of the four buttons (previous = max(1, c-1), next = min(T, c+1), first = 1,
last = T) sets a page between 1 and the page count and leaves the page count as it
is; previous on page 1 and next on the last page leave the page unchanged. -/
theorem pager_buttons_in_range {α : Type} (toLowerCase : String → String) (st : State)
    (users : List α) (c : Nat)
    (hT : 1 ≤ totalPages toLowerCase st) (hc1 : 1 ≤ st.currentPage)
    (hc : st.currentPage ≤ totalPages toLowerCase st)
    (hU : 1 ≤ Users.totalPages users) (hu1 : 1 ≤ c) (hu : c ≤ Users.totalPages users) :
    ((clickPrevious st).currentPage = max 1 (st.currentPage - 1) ∧
        1 ≤ (clickPrevious st).currentPage ∧
        (clickPrevious st).currentPage ≤ totalPages toLowerCase st) ∧
      ((clickNext toLowerCase st).currentPage =
          min (totalPages toLowerCase st) (st.currentPage + 1) ∧
        1 ≤ (clickNext toLowerCase st).currentPage ∧
        (clickNext toLowerCase st).currentPage ≤ totalPages toLowerCase st) ∧
      (clickFirst st).currentPage = 1 ∧
      (clickLast toLowerCase st).currentPage = totalPages toLowerCase st ∧
      (st.currentPage = 1 → (clickPrevious st).currentPage = st.currentPage) ∧
      (st.currentPage = totalPages toLowerCase st →
        (clickNext toLowerCase st).currentPage = st.currentPage) ∧
      (totalPages toLowerCase (clickPrevious st) = totalPages toLowerCase st ∧
        totalPages toLowerCase (clickNext toLowerCase st) = totalPages toLowerCase st ∧
        totalPages toLowerCase (clickFirst st) = totalPages toLowerCase st ∧
        totalPages toLowerCase (clickLast toLowerCase st) = totalPages toLowerCase st) ∧
      ((1 ≤ Users.clickPrevious c ∧ Users.clickPrevious c ≤ Users.totalPages users) ∧
        (1 ≤ Users.clickNext users c ∧ Users.clickNext users c ≤ Users.totalPages users) ∧
        Users.clickFirst = 1 ∧ Users.clickLast users = Users.totalPages users ∧
        (c = 1 → Users.clickPrevious c = c) ∧
        (c = Users.totalPages users → Users.clickNext users c = c)) := by
  refine ⟨⟨rfl, ?_, ?_⟩, ⟨rfl, ?_, ?_⟩, rfl, rfl, ?_, ?_, ⟨rfl, rfl, rfl, rfl⟩,
    ⟨?_, ?_⟩, ⟨?_, ?_⟩, rfl, rfl, ?_, ?_⟩
  · show 1 ≤ max 1 (st.currentPage - 1)
    omega
  · show max 1 (st.currentPage - 1) ≤ totalPages toLowerCase st
    omega
  · show 1 ≤ min (totalPages toLowerCase st) (st.currentPage + 1)
    omega
  · show min (totalPages toLowerCase st) (st.currentPage + 1) ≤ totalPages toLowerCase st
    omega
  · intro h
    show max 1 (st.currentPage - 1) = st.currentPage
    omega
  · intro h
    show min (totalPages toLowerCase st) (st.currentPage + 1) = st.currentPage
    omega
  · show 1 ≤ max 1 (c - 1)
    omega
  · show max 1 (c - 1) ≤ Users.totalPages users
    omega
  · show 1 ≤ min (Users.totalPages users) (c + 1)
    omega
  · show min (Users.totalPages users) (c + 1) ≤ Users.totalPages users
    omega
  · intro h
    show max 1 (c - 1) = c
    omega
  · intro h
    show min (Users.totalPages users) (c + 1) = c
    omega

theorem pager_buttons_in_range_witness :
    (clickPrevious elevenOnPageTwo).currentPage = 1 ∧
      (clickNext asciiLower elevenOnPageTwo).currentPage = 2 :=
  ⟨(pager_buttons_in_range asciiLower elevenOnPageTwo (List.range 15) 3 (by decide) (by decide)
      (by decide) (by decide) (by decide) (by decide)).1.1.trans (by decide),
   (pager_buttons_in_range asciiLower elevenOnPageTwo (List.range 15) 3 (by decide) (by decide)
      (by decide) (by decide) (by decide) (by decide)).2.1.1.trans (by decide)⟩

/-! ## Page numbers -/

theorem pushRange_three (a : Nat) :
    pushRange a (a + 2) = [PageEntry.page a, PageEntry.page (a + 1), PageEntry.page (a + 2)] := by
  have h : a + 2 + 1 - a = 3 := by omega
  simp [pushRange, h, List.range']

theorem getPageNumbers_small (T c : Nat) (h : T ≤ 5) :
    TransactionHistory.getPageNumbers T c = (List.range' 1 T).map PageEntry.page := by
  simp [TransactionHistory.getPageNumbers, pushRange, h]

theorem getPageNumbers_begin (T c : Nat) (hT : 5 < T) (hc : c ≤ 3) :
    TransactionHistory.getPageNumbers T c =
      [PageEntry.page 1, PageEntry.page 2, PageEntry.page 3, PageEntry.page 4,
        PageEntry.page T] := by
  have h1 : ¬ T ≤ 5 := by omega
  have h2 : min (5 - 1) (T - 1) = 2 + 2 := by omega
  simp only [TransactionHistory.getPageNumbers, h1, hc, if_true, if_false, h2,
    pushRange_three]
  rfl

theorem getPageNumbers_end (T c : Nat) (hT : 5 < T) (h3 : 3 < c) (hc : T - 2 ≤ c) :
    TransactionHistory.getPageNumbers T c =
      [PageEntry.page 1, PageEntry.page (T - 3), PageEntry.page (T - 2), PageEntry.page (T - 1),
        PageEntry.page T] := by
  have h1 : ¬ T ≤ 5 := by omega
  have h2 : ¬ c ≤ 3 := by omega
  have h4 : c ≥ T - 2 := hc
  have h5 : max 2 (T - (5 - 2)) = T - 3 := by omega
  have h6 : T - 1 = (T - 3) + 2 := by omega
  have h7 : T - 2 = (T - 3) + 1 := by omega
  simp only [TransactionHistory.getPageNumbers, h1, h2, h4, if_true, if_false, h5]
  rw [h6, pushRange_three, h7]
  rfl

theorem getPageNumbers_middle (T c : Nat) (h3 : 3 < c) (hc : c < T - 2) :
    TransactionHistory.getPageNumbers T c =
      [PageEntry.page 1, PageEntry.ellipsis, PageEntry.page (c - 1), PageEntry.page c,
        PageEntry.page (c + 1), PageEntry.ellipsis, PageEntry.page T] := by
  have h1 : ¬ T ≤ 5 := by omega
  have h2 : ¬ c ≤ 3 := by omega
  have h4 : ¬ c ≥ T - 2 := by omega
  have h5 : max 2 (c - 1) = c - 1 := by omega
  have h6 : min (T - 1) (c + 1) = (c - 1) + 2 := by omega
  have h7 : c - 1 > 2 := by omega
  have h8 : (c - 1) + 2 < T - 1 := by omega
  have h9 : c - 1 + 1 = c := by omega
  have h10 : c - 1 + 2 = c + 1 := by omega
  simp only [TransactionHistory.getPageNumbers, h1, h2, h4, if_true, if_false, h5, h6, h7, h8,
    pushRange_three]
  rw [h9, h10]
  rfl

/-- C24: for every page count `T ≥ 1` and current page `c` with `1 ≤ c ≤ T`,
`getPageNumbers` returns a list with at most 5 page numbers, strictly increasing, whose
first entry is page 1 and whose last entry is page `T`, and which contains `c`; for
`T ≤ 5` it is exactly `[1, ..., T]`. -/
theorem getPageNumbers_spec (T c : Nat) (hT : 1 ≤ T) (hc1 : 1 ≤ c) (hc : c ≤ T) :
    (pageNumbersOf (TransactionHistory.getPageNumbers T c)).length ≤ 5 ∧
      (pageNumbersOf (TransactionHistory.getPageNumbers T c)).Pairwise (· < ·) ∧
      (TransactionHistory.getPageNumbers T c).head? = some (PageEntry.page 1) ∧
      (TransactionHistory.getPageNumbers T c).getLast? = some (PageEntry.page T) ∧
      c ∈ pageNumbersOf (TransactionHistory.getPageNumbers T c) ∧
      (T ≤ 5 →
        TransactionHistory.getPageNumbers T c = (List.range' 1 T).map PageEntry.page ∧
          pageNumbersOf (TransactionHistory.getPageNumbers T c) = List.range' 1 T) := by
  by_cases hsmall : T ≤ 5
  · interval_cases T <;> interval_cases c <;> decide
  · have h5 : 5 < T := by omega
    by_cases hb : c ≤ 3
    · rw [getPageNumbers_begin T c h5 hb]
      refine ⟨by simp [pageNumbersOf], ?_, rfl, rfl, ?_, fun h => absurd h hsmall⟩
      · simp [pageNumbersOf]
        omega
      · simp [pageNumbersOf]
        omega
    · by_cases he : T - 2 ≤ c
      · rw [getPageNumbers_end T c h5 (by omega) he]
        refine ⟨by simp [pageNumbersOf], ?_, rfl, rfl, ?_, fun h => absurd h hsmall⟩
        · simp [pageNumbersOf]
          omega
        · simp [pageNumbersOf]
          omega
      · rw [getPageNumbers_middle T c (by omega) (by omega)]
        refine ⟨by simp [pageNumbersOf], ?_, rfl, rfl, ?_, fun h => absurd h hsmall⟩
        · simp [pageNumbersOf]
          omega
        · simp [pageNumbersOf]

theorem getPageNumbers_spec_witness :
    pageNumbersOf (TransactionHistory.getPageNumbers 9 5) = [1, 4, 5, 6, 9] ∧
      5 ∈ pageNumbersOf (TransactionHistory.getPageNumbers 9 5) :=
  ⟨by decide, (getPageNumbers_spec 9 5 (by decide) (by decide) (by decide)).2.2.2.2.1⟩

/-- C25 fails on the code: with 6 pages and current page 1 `getPageNumbers` returns
1, 2, 3, 4, 6, and with current page 6 it returns 1, 3, 4, 5, 6; the page numbers 4
and 6, and 1 and 3, follow each other with no ellipsis between them. Only the branch
for a current page in the middle pushes an ellipsis, as with 9 pages and current
page 5. -/
theorem getPageNumbers_gap_unmarked :
    TransactionHistory.getPageNumbers 6 1 =
        [PageEntry.page 1, PageEntry.page 2, PageEntry.page 3, PageEntry.page 4,
          PageEntry.page 6] ∧
      gapsMarked (TransactionHistory.getPageNumbers 6 1) = false ∧
      TransactionHistory.getPageNumbers 6 6 =
        [PageEntry.page 1, PageEntry.page 3, PageEntry.page 4, PageEntry.page 5,
          PageEntry.page 6] ∧
      gapsMarked (TransactionHistory.getPageNumbers 6 6) = false ∧
      gapsMarked (TransactionHistory.getPageNumbers 9 5) = true := by
  decide

/-! ## Breadcrumbs -/

theorem intercalate_go_eq_foldl (l : List String) (acc : String) :
    String.intercalate.go acc "/" l = l.foldl (fun p s => p ++ "/" ++ s) acc := by
  induction l generalizing acc with
  | nil => rfl
  | cons a l ih =>
    simp only [String.intercalate.go, List.foldl_cons]
    exact ih _

theorem append_foldl_path (l : List String) (x acc : String) :
    x ++ l.foldl (fun p s => p ++ "/" ++ s) acc =
      l.foldl (fun p s => p ++ "/" ++ s) (x ++ acc) := by
  induction l generalizing acc with
  | nil => rfl
  | cons a l ih =>
    simp only [List.foldl_cons]
    rw [ih, String.append_assoc, String.append_assoc, String.append_assoc]

/-- The path the loop has built after the segments `a :: l`, starting from the empty
path, is "/" followed by the segments joined with "/". -/
theorem foldl_path_eq_intercalate (a : String) (l : List String) :
    (a :: l).foldl (fun p s => p ++ "/" ++ s) "" = "/" ++ "/".intercalate (a :: l) := by
  simp only [List.foldl_cons, String.intercalate, intercalate_go_eq_foldl]
  rw [append_foldl_path]
  rfl

theorem breadcrumbs_foldl (upperFirst : Char → String) (suf : List String) (p : String)
    (bs : List Breadcrumb) :
    (suf.foldl
      (fun (acc : String × List Breadcrumb) name =>
        (acc.1 ++ "/" ++ name,
          acc.2 ++ [{ name := formatName upperFirst name, path := acc.1 ++ "/" ++ name }]))
      (p, bs)).2 =
      bs ++ (List.range suf.length).map fun k =>
        { name := formatName upperFirst (suf.getD k "")
          path := (suf.take (k + 1)).foldl (fun p s => p ++ "/" ++ s) p } := by
  induction suf generalizing p bs with
  | nil => simp
  | cons a l ih =>
    rw [List.foldl_cons, ih, List.length_cons, List.range_succ_eq_map, List.map_cons,
      List.map_map, List.append_assoc]
    rfl

/-- C30: for every pathname, with `n` the number of its non-empty "/"-separated
segments, `generateBreadcrumbs` returns `n + 1` crumbs: the first is Home with path
"/", and the k-th after it has as path "/" followed by the first k segments joined
with "/" and as name the k-th segment with its first character upper-cased; for a
pathname without segments, as the root path, it returns only the Home crumb. -/
theorem generateBreadcrumbs_spec (upperFirst : Char → String) (pathname : String) :
    generateBreadcrumbs upperFirst pathname =
        { name := "Home", path := "/" } ::
          (List.range (pathnames pathname).length).map (fun k =>
            { name := formatName upperFirst ((pathnames pathname).getD k "")
              path := "/" ++ "/".intercalate ((pathnames pathname).take (k + 1)) }) ∧
      (generateBreadcrumbs upperFirst pathname).length = (pathnames pathname).length + 1 ∧
      (pathnames pathname = [] →
        generateBreadcrumbs upperFirst pathname = [{ name := "Home", path := "/" }]) ∧
      (∀ s ∈ pathnames pathname, s ≠ "") ∧
      (∀ (c : Char) (rest : List Char),
        formatName upperFirst (String.mk (c :: rest)) = upperFirst c ++ String.mk rest) ∧
      generateBreadcrumbs upperFirst "/" = [{ name := "Home", path := "/" }] := by
  have hmain : generateBreadcrumbs upperFirst pathname =
      { name := "Home", path := "/" } ::
        (List.range (pathnames pathname).length).map (fun k =>
          { name := formatName upperFirst ((pathnames pathname).getD k "")
            path := "/" ++ "/".intercalate ((pathnames pathname).take (k + 1)) }) := by
    unfold generateBreadcrumbs
    simp only []
    split_ifs with h0
    · rw [h0]
      rfl
    · rw [breadcrumbs_foldl, List.singleton_append]
      congr 1
      apply List.map_congr_left
      intro k hk
      rw [List.mem_range] at hk
      cases hseg : pathnames pathname with
      | nil => rw [hseg] at hk; exact absurd hk (Nat.not_lt_zero _)
      | cons a l =>
        simp only [List.take_succ_cons, foldl_path_eq_intercalate]
  refine ⟨hmain, ?_, ?_, ?_, ?_, ?_⟩
  · rw [hmain]
    simp
  · intro h
    rw [hmain, h]
    rfl
  · intro s hs
    simp only [pathnames, List.mem_map, List.mem_filter] at hs
    obtain ⟨cs, ⟨_, hne⟩, rfl⟩ := hs
    intro he
    have : cs = [] := by
      have h2 := congrArg String.data he
      simpa using h2
    rw [this] at hne
    simp at hne
  · intro c rest
    rfl
  · have h : pathnames "/" = [] := by decide
    unfold generateBreadcrumbs
    simp only [h, List.length_nil, if_true]

theorem generateBreadcrumbs_spec_witness :
    generateBreadcrumbs asciiUpperFirst "/admin/users" =
        [{ name := "Home", path := "/" }, { name := "Admin", path := "/admin" },
          { name := "Users", path := "/admin/users" }] ∧
      generateBreadcrumbs asciiUpperFirst "" = [{ name := "Home", path := "/" }] :=
  ⟨(generateBreadcrumbs_spec asciiUpperFirst "/admin/users").1.trans (by decide),
   (generateBreadcrumbs_spec asciiUpperFirst "").2.2.1 (by decide)⟩

end Traveloke
